import Mathlib

/-!
Verification development for the bogosql query engine (a small SQL engine over
CSV-backed, row-major string tables).  The definitions below are a shallow
embedding of `src/table.rs`, `src/eval.rs` and `src/select.rs`, plus the
surface parser of `src/parser.rs`.

Modelling conventions:
* all cells are Lean `String`s, as in the source (Rust `String`);
* Rust `f64` arithmetic is abstracted behind a `FloatModel` parameter: the
  executor's control flow never depends on the concrete float semantics, and
  every theorem below is proved for an arbitrary model;
* the aggregate accumulator of `eval.rs` is keyed by the memory address of the
  AST node in Rust; here a node is identified by its position (which projected
  column / join condition / WHERE condition it belongs to, together with the
  path from that root), which matches address identity because distinct parse
  nodes have distinct positions and `ColIdx` re-enters a projected column at
  its root;
* Rust panics (the ambiguous-column `panic!` in `find_col`, the division by
  zero in the row count when a schema is empty, out-of-bounds indexing) are
  modelled as distinguished error values, kept separate from ordinary
  returned errors;
* unbounded iteration (the cursor loops, recursion through `ColIdx`) takes a
  fuel argument; exhausting fuel yields a dedicated error.
-/

namespace Bogo

/-- Abstract interface for the `f64` operations the engine uses.  The engine's
observable behaviour on the claims below does not depend on the concrete
float semantics, so theorems quantify over an arbitrary model. -/
structure FloatModel (F : Type) where
  zero : F
  parse : String → Option F
  toStr : F → String
  add : F → F → F
  sub : F → F → F
  mul : F → F → F
  div : F → F → F
  fmin : F → F → F
  fmax : F → F → F
  ofNat : Nat → F

/-- Trivial float model used to instantiate concrete witnesses. -/
def unitFloat : FloatModel Unit where
  zero := ()
  parse := fun _ => some ()
  toStr := fun _ => "0"
  add := fun _ _ => ()
  sub := fun _ _ => ()
  mul := fun _ _ => ()
  div := fun _ _ => ()
  fmin := fun _ _ => ()
  fmax := fun _ _ => ()
  ofNat := fun _ => ()

/-- Schema entry: a named column (`RowSchema` in `table.rs`). -/
structure RowSchema where
  name : String
deriving DecidableEq, Repr

/-- A table: name, ordered schema, row-major flat cell storage (`table.rs`). -/
structure Table where
  name : String
  schema : List RowSchema
  data : List String
deriving DecidableEq, Repr

/-- Cell accessor from `table.rs`: `data.get(col + row * cols)`. -/
def Table.get (t : Table) (row col : Nat) : Option String :=
  t.data.get? (col + row * t.schema.length)

/-- Number of rows of a table, as computed by the executor:
`data.len() / schema.len()`. -/
def Table.rows (t : Table) : Nat :=
  t.data.length / t.schema.length

/-- The catalog: a mapping from table name to table (`db.rs`). -/
def Database := List (String × Table)

/-- Catalog lookup (`HashMap::get`). -/
def dbGet (db : Database) (name : String) : Option Table :=
  (db.find? (fun p => p.1 == name)).map (·.2)

/-- Table reference in a FROM or JOIN clause, with optional alias (the field
is `alias` in the source; that word is a Lean keyword). -/
structure TableSpecifier where
  name : String
  aliasName : Option String
deriving DecidableEq, Repr

/-- Join kinds supported by the engine. -/
inductive JoinKind where
  | inner
  | left
deriving DecidableEq, Repr

/-- Sort direction of an ORDER BY clause (`Ordering` in `select.rs`; renamed
here to avoid the clash with core `Ordering`). -/
inductive SortOrdering where
  | asc
  | desc
deriving DecidableEq, Repr

/-- Binary operators of the expression language. -/
inductive BinOp where
  | add | sub | mul | div
  | eq | ne | lt | gt | le | ge
  | and | or
deriving DecidableEq, Repr

/-- Unary operators of the expression language. -/
inductive UniOp where
  | not
deriving DecidableEq, Repr

/-- A column reference, optionally qualified by a table name or alias. -/
structure Column where
  table : Option String
  column : String
deriving DecidableEq, Repr

mutual

/-- Expression AST (`Expr` in `select.rs`). -/
inductive Expr where
  | column (col : Column)
  | colIdx (idx : Nat)
  | strLiteral (lit : String)
  | binary (op : BinOp) (lhs : Expr) (rhs : Expr)
  | unary (op : UniOp) (operand : Expr)
  | aggregateFn (name : String) (args : List ColSpecifier)

/-- Projection item: wildcard or expression (`ColSpecifier` in `select.rs`). -/
inductive ColSpecifier where
  | wildcard
  | expr (e : Expr)

end

/-- Join clause of a SELECT statement. -/
structure JoinClause where
  kind : JoinKind
  table : TableSpecifier
  condition : Expr

/-- ORDER BY clause. -/
structure OrderBy where
  expr : Expr
  ordering : SortOrdering

/-- A parsed SELECT statement (`SelectStmt` in `select.rs`). -/
structure SelectStmt where
  cols : List ColSpecifier
  table : TableSpecifier
  join : List JoinClause
  condition : Option Expr
  ordering : Option OrderBy
  limit : Option Nat
  offset : Option Nat

/-- Rendering of binary operators (the `Display` impl in `select.rs`). -/
def binOpToString : BinOp → String
  | .add => "+"
  | .sub => "-"
  | .mul => "*"
  | .div => "/"
  | .eq => "="
  | .ne => "<>"
  | .lt => "<"
  | .gt => ">"
  | .le => "<="
  | .ge => ">="
  | .and => "AND"
  | .or => "OR"

/-- Rendering of unary operators. -/
def uniOpToString : UniOp → String
  | .not => "NOT"

mutual

/-- Rendering of expressions (the `Display` impl for `Expr` in `select.rs`;
note that a `Column` renders as its bare column name there). -/
def exprToString : Expr → String
  | .column col => col.column
  | .colIdx idx => toString idx
  | .strLiteral lit => "'" ++ lit ++ "'"
  | .binary op lhs rhs =>
      "(" ++ exprToString lhs ++ " " ++ binOpToString op ++ " " ++ exprToString rhs ++ ")"
  | .unary op operand => uniOpToString op ++ " " ++ exprToString operand
  | .aggregateFn name args => name ++ "(" ++ argsToString args ++ ")"

/-- Rendering of a projection item. -/
def colSpecToString : ColSpecifier → String
  | .wildcard => "*"
  | .expr e => exprToString e

/-- Comma-separated rendering of an argument list. -/
def argsToString : List ColSpecifier → String
  | [] => ""
  | [a] => colSpecToString a
  | a :: rest => colSpecToString a ++ ", " ++ argsToString rest

end

/-- ASCII lower-casing of a character (for case-insensitive keyword and
function-name handling, `to_ascii_lowercase`). -/
def asciiLowerChar (c : Char) : Char :=
  if 'A' ≤ c && c ≤ 'Z' then Char.ofNat (c.toNat + 32) else c

/-- ASCII lower-casing of a string. -/
def asciiLower (s : String) : String :=
  String.mk (s.data.map asciiLowerChar)

/-- ASCII case-insensitive string equality (`eq_ignore_ascii_case`). -/
def eqIgnoreAsciiCase (a b : String) : Bool :=
  asciiLower a == asciiLower b

/-- Boolean coercion from `eval.rs`: `"1"` or (case-insensitively) `"true"`. -/
def coerce_bool (val : String) : Bool :=
  val == "1" || eqIgnoreAsciiCase val "true"

/-- Lexicographic order on character lists, matching Rust's byte-wise `String`
ordering (UTF-8 byte order coincides with scalar-value order). -/
def charListLt : List Char → List Char → Bool
  | _, [] => false
  | [], _ :: _ => true
  | a :: as_, b :: bs => a < b || (a == b && charListLt as_ bs)

/-- String strict order used by the comparison operators and ORDER BY. -/
def strLt (a b : String) : Bool :=
  charListLt a.data b.data

/-- Rendering of a boolean produced by a binary operator (`bool::to_string`). -/
def boolStr (b : Bool) : String :=
  if b then "true" else "false"

/-- Numeric coercion from `eval.rs` (`coerce_f64`): parse, defaulting to 0. -/
def coerce_f64 {F : Type} (fm : FloatModel F) (val : String) : F :=
  (fm.parse val).getD fm.zero

/-- Binary operator evaluation (`eval_bin_op` in `eval.rs`). -/
def eval_bin_op {F : Type} (fm : FloatModel F) (op : BinOp) (lhs rhs : String) : String :=
  match op with
  | .add => fm.toStr (fm.add (coerce_f64 fm lhs) (coerce_f64 fm rhs))
  | .sub => fm.toStr (fm.sub (coerce_f64 fm lhs) (coerce_f64 fm rhs))
  | .mul => fm.toStr (fm.mul (coerce_f64 fm lhs) (coerce_f64 fm rhs))
  | .div => fm.toStr (fm.div (coerce_f64 fm lhs) (coerce_f64 fm rhs))
  | .eq => boolStr (lhs == rhs)
  | .ne => boolStr (lhs != rhs)
  | .lt => boolStr (strLt lhs rhs)
  | .gt => boolStr (strLt rhs lhs)
  | .le => boolStr (!strLt rhs lhs)
  | .ge => boolStr (!strLt lhs rhs)
  | .and => boolStr (coerce_bool lhs && coerce_bool rhs)
  | .or => boolStr (coerce_bool lhs || coerce_bool rhs)

/-- Evaluation errors (`EvalError` in `eval.rs`).  `panicColumnName` models
the `panic!` in `QueryContext::find_col` (a process abort, not a returned
error); `fuelExhausted` models non-termination (unbounded `ColIdx`
recursion). -/
inductive EvalError where
  | colNotFound (col : String)
  | rowNotFound (row : Nat)
  | cursorNone (table : Nat)
  | aggregateCall (name : String)
  | coerce (src dst : String)
  | disallowedWildcard (name : String)
  | insufficientArg (func : String)
  | panicColumnName (name : String)
  | fuelExhausted
deriving DecidableEq, Repr

/-- Whether an evaluation error models a Rust panic (which propagates through
every `match` on a `Result`). -/
def EvalError.isPanic : EvalError → Bool
  | .panicColumnName _ => true
  | _ => false

/-- Executor-level errors (`Box<dyn Error>` payloads in `select.rs` and
`eval.rs`).  `recurse` is the "Recurse" error of `aggregate_expr`;
`panicked` models Rust panics of the executor (division by zero in the
row-count computation, out-of-bounds indexing); `fuel` models
non-termination of the cursor loops. -/
inductive ExecError where
  | eval (e : EvalError)
  | recurse
  | unknownFunction (name : String)
  | tableNotFound (name : String)
  | panicked (what : String)
  | fuel
deriving DecidableEq, Repr

/-- Per-table cursor (`RowCursor` in `select.rs`): current row (`none` is the
LEFT-JOIN pad) and whether the row combination has been emitted. -/
structure RowCursor where
  row : Option Nat
  shown : Bool
deriving DecidableEq, Repr

/-- Initial cursor (`RowCursor::new`). -/
def RowCursor.init : RowCursor := ⟨some 0, false⟩

/-- Resolved column reference (`ColRef` in `select.rs`): the table it lives
in, its position among the joined tables, and the column index. -/
structure ColRef where
  table : Table
  joindex : Nat
  col : Nat

/-- Cell lookup through a resolved column reference (`ColRef::get`). -/
def ColRef.get (self : ColRef) (rowIndices : List RowCursor) : Except EvalError String :=
  match rowIndices.get? self.joindex with
  | none => .error (.colNotFound (toString self.joindex))
  | some rc =>
    match rc.row with
    | none => .error (.cursorNone self.joindex)
    | some row =>
      match self.table.get row self.col with
      | none => .error (.rowNotFound row)
      | some v => .ok v

/-- Alias map insertion (`HashMap::insert`; a later insert wins on lookup). -/
def aliasInsert (m : List (String × Nat)) (k : String) (v : Nat) : List (String × Nat) :=
  (k, v) :: m

/-- Alias map lookup. -/
def aliasLookup (m : List (String × Nat)) (k : String) : Option Nat :=
  (m.find? (fun p => p.1 == k)).map (·.2)

/-- One step of the unqualified-name fold of `QueryContext::find_col`: the
closure passed to `fold` there, with `.error` modelling the
`panic!("Column name {}")` on a second match. -/
def find_col_step (nm : String) (acc : Option ColRef) (p : Nat × Table) :
    Except String (Option ColRef) :=
  let candidate : Option ColRef :=
    (p.2.schema.enum.find? (fun q => q.2.name == nm)).map
      fun q => ColRef.mk p.2 p.1 q.1
  match candidate with
  | some c =>
    match acc with
    | some _ => .error nm
    | none => Except.ok (some c)
  | none => Except.ok acc

/-- Name resolution (`QueryContext::find_col`).  The result is `.error name`
exactly when the Rust code panics on an ambiguous unqualified column. -/
def find_col (tables : List Table) (aliases : List (String × Nat)) (column : Column) :
    Except String (Option ColRef) :=
  match column.table with
  | some tableName =>
    let byAlias : Option (Nat × Table) :=
      (aliasLookup aliases tableName).bind fun i => (tables.get? i).map fun t => (i, t)
    let found : Option (Nat × Table) :=
      byAlias.orElse fun _ =>
        (tables.enum.find? (fun p => p.2.name == tableName))
    match found with
    | none => .ok none
    | some (joindex, table) =>
      .ok ((table.schema.enum.find? (fun p => p.2.name == column.column)).map
        fun p => ColRef.mk table joindex p.1)
  | none =>
    tables.enum.foldlM (find_col_step column.column) none

/-- Identity of an AST node occurrence: which root it belongs to.  In Rust the
accumulator is keyed by the node's memory address; nodes of distinct roots
(projected columns, join conditions, the WHERE condition) are distinct
objects, and `ColIdx` re-enters a projected column at its root, so a root
plus a path models address identity exactly. -/
inductive NodeRoot where
  | col (i : Nat)
  | whereCond
  | joinCond (i : Nat)
deriving DecidableEq, Repr

instance : BEq NodeRoot := ⟨fun a b => decide (a = b)⟩

/-- Key of an aggregate accumulator entry: root and path of the AST node. -/
abbrev AggKey := NodeRoot × List Nat

/-- Running state of an `avg` accumulator (`AggregateAvg` in `eval.rs`). -/
structure AggregateAvg (F : Type) where
  sum : F
  count : Nat

/-- Aggregate accumulators (`AggregateResult` in `eval.rs`), keyed by node
identity. -/
structure AggregateResult (F : Type) where
  count : List (AggKey × Nat) := []
  sum : List (AggKey × F) := []
  avg : List (AggKey × AggregateAvg F) := []
  min : List (AggKey × F) := []
  max : List (AggKey × F) := []

/-- Lookup in an accumulator map (`HashMap::get`). -/
def alistGet {α : Type} (m : List (AggKey × α)) (k : AggKey) : Option α :=
  (m.find? (fun p => p.1 == k)).map (·.2)

/-- Update in an accumulator map (`entry(..).or_default()` followed by a
mutation: the entry is created from the default if absent, then updated). -/
def alistUpdate {α : Type} (m : List (AggKey × α)) (k : AggKey) (dflt : α) (f : α → α) :
    List (AggKey × α) :=
  match m with
  | [] => [(k, f dflt)]
  | (k', v) :: rest =>
    if k' == k then (k', f v) :: rest else (k', v) :: alistUpdate rest k dflt f

/-- Modelled from the spec: `ColSpecifier::as_expr` is referenced by
`eval.rs` (the `length`/`upper`/`lower` argument handling) but its definition
is not part of the sources given; per §4.3/§7 a `*` argument outside
`count` is a disallowed wildcard. -/
def ColSpecifier.as_expr : ColSpecifier → Except EvalError Expr
  | .expr e => .ok e
  | .wildcard => .error (.disallowedWildcard "*")

/-- Scalar expression evaluation (`eval_expr` in `eval.rs`).  `root`/`path`
identify the current node (see `NodeRoot`); `fuel` bounds the recursion
depth (Rust recursion through `ColIdx` may diverge). -/
def eval_expr {F : Type} (fm : FloatModel F) :
    Nat → NodeRoot → List Nat → Expr → List Expr → List Table →
    List (String × Nat) → List RowCursor → AggregateResult F → Except EvalError String
  | 0, _, _, _, _, _, _, _, _ => .error .fuelExhausted
  | fuel+1, root, path, expr, cols, tables, aliases, cursor, aggs =>
    match expr with
    | .column col =>
      match find_col tables aliases col with
      | .error nm => .error (.panicColumnName nm)
      | .ok none => .error (.colNotFound col.column)
      | .ok (some cr) => cr.get cursor
    | .colIdx i =>
      match i with
      | 0 => .error (.colNotFound "0")
      | j+1 =>
        match cols.get? j with
        | none => .error (.colNotFound (toString (j+1)))
        | some c => eval_expr fm fuel (.col j) [] c cols tables aliases cursor aggs
    | .strLiteral lit => .ok lit
    | .binary op lhs rhs =>
      match eval_expr fm fuel root (path ++ [0]) lhs cols tables aliases cursor aggs with
      | .error e => .error e
      | .ok lv =>
        match eval_expr fm fuel root (path ++ [1]) rhs cols tables aliases cursor aggs with
        | .error e => .error e
        | .ok rv => .ok (eval_bin_op fm op lv rv)
    | .unary .not operand =>
      match eval_expr fm fuel root (path ++ [0]) operand cols tables aliases cursor aggs with
      | .error e => .error e
      | .ok v => .ok (if coerce_bool v then "0" else "1")
    | .aggregateFn name args =>
      match asciiLower name with
      | "length" =>
        match args.get? 0 with
        | none => .error (.insufficientArg "length")
        | some sp =>
          match sp.as_expr with
          | .error e => .error e
          | .ok arg =>
            match eval_expr fm fuel root (path ++ [0]) arg cols tables aliases cursor aggs with
            | .error e => .error e
            | .ok v => .ok (toString v.utf8ByteSize)
      | "upper" =>
        match args.get? 0 with
        | none => .error (.insufficientArg "upper")
        | some sp =>
          match sp.as_expr with
          | .error e => .error e
          | .ok arg =>
            match eval_expr fm fuel root (path ++ [0]) arg cols tables aliases cursor aggs with
            | .error e => .error e
            | .ok v => .ok v.toUpper
      | "lower" =>
        match args.get? 0 with
        | none => .error (.insufficientArg "lower")
        | some sp =>
          match sp.as_expr with
          | .error e => .error e
          | .ok arg =>
            match eval_expr fm fuel root (path ++ [0]) arg cols tables aliases cursor aggs with
            | .error e => .error e
            | .ok v => .ok v.toLower
      | "count" =>
        match alistGet aggs.count (root, path) with
        | some v => .ok (toString v)
        | none => .error (.aggregateCall name)
      | "sum" =>
        match alistGet aggs.sum (root, path) with
        | some v => .ok (fm.toStr v)
        | none => .error (.aggregateCall name)
      | "avg" =>
        match alistGet aggs.avg (root, path) with
        | some entry => .ok (fm.toStr (fm.div entry.sum (fm.ofNat entry.count)))
        | none => .error (.aggregateCall name)
      | "min" =>
        match alistGet aggs.min (root, path) with
        | some v => .ok (fm.toStr v)
        | none => .error (.aggregateCall name)
      | "max" =>
        match alistGet aggs.max (root, path) with
        | some v => .ok (fm.toStr v)
        | none => .error (.aggregateCall name)
      | _ => .error (.aggregateCall name)

/-- Argument evaluation for `sum`/`avg`/`min`/`max` (`eval_col_spec` in
`aggregate_expr`); Rust indexes `args[0]`, panicking when empty. -/
def eval_col_spec {F : Type} (fm : FloatModel F) (fuel : Nat) (name : String)
    (root : NodeRoot) (path : List Nat) (args : List ColSpecifier) (cols : List Expr)
    (tables : List Table) (aliases : List (String × Nat)) (cursor : List RowCursor)
    (results : AggregateResult F) : Except ExecError F :=
  match args.get? 0 with
  | none => .error (.panicked "index out of bounds")
  | some sp =>
    match sp with
    | .wildcard => .error (.eval (.disallowedWildcard name))
    | .expr ex =>
      match eval_expr fm fuel root (path ++ [0]) ex cols tables aliases cursor results with
      | .error e => .error (.eval e)
      | .ok val =>
        match fm.parse val with
        | none => .error (.eval (.coerce "String" "f64"))
        | some v => .ok v

/-- Aggregating expression walk (`aggregate_expr` in `eval.rs`): same shape as
`eval_expr`, but aggregate nodes advance their accumulator entry. -/
def aggregate_expr {F : Type} (fm : FloatModel F) :
    Nat → NodeRoot → List Nat → Expr → List Expr → List Table →
    List (String × Nat) → List RowCursor → AggregateResult F →
    Except ExecError (String × AggregateResult F)
  | 0, _, _, _, _, _, _, _, _ => .error .fuel
  | fuel+1, root, path, expr, cols, tables, aliases, cursor, results =>
    match expr with
    | .colIdx i =>
      match i with
      | 0 => .error (.eval (.colNotFound "0"))
      | j+1 =>
        match cols.get? j with
        | none => .error (.eval (.colNotFound (toString (j+1))))
        | some c =>
          if root == NodeRoot.col j && path.isEmpty then .error .recurse
          else aggregate_expr fm fuel (.col j) [] c cols tables aliases cursor results
    | .binary op lhs rhs =>
      match aggregate_expr fm fuel root (path ++ [0]) lhs cols tables aliases cursor results with
      | .error e => .error e
      | .ok (lv, results1) =>
        match aggregate_expr fm fuel root (path ++ [1]) rhs cols tables aliases cursor results1 with
        | .error e => .error e
        | .ok (rv, results2) => .ok (eval_bin_op fm op lv rv, results2)
    | .unary .not operand =>
      match aggregate_expr fm fuel root (path ++ [0]) operand cols tables aliases cursor results with
      | .error e => .error e
      | .ok (v, results1) => .ok ((if coerce_bool v then "0" else "1"), results1)
    | .aggregateFn name args =>
      match asciiLower name with
      | "length" =>
        match eval_expr fm fuel root path expr cols tables aliases cursor results with
        | .error e => .error (.eval e)
        | .ok v => .ok (v, results)
      | "upper" =>
        match eval_expr fm fuel root path expr cols tables aliases cursor results with
        | .error e => .error (.eval e)
        | .ok v => .ok (v, results)
      | "lower" =>
        match eval_expr fm fuel root path expr cols tables aliases cursor results with
        | .error e => .error (.eval e)
        | .ok v => .ok (v, results)
      | "count" =>
        let newCount := (alistGet results.count (root, path)).getD 0 + 1
        .ok (toString newCount,
          { results with count := alistUpdate results.count (root, path) 0 (· + 1) })
      | "sum" =>
        match eval_col_spec fm fuel "sum" root path args cols tables aliases cursor results with
        | .error e => .error e
        | .ok val =>
          let newSum := fm.add ((alistGet results.sum (root, path)).getD fm.zero) val
          .ok (fm.toStr newSum,
            { results with sum := alistUpdate results.sum (root, path) fm.zero (fm.add · val) })
      | "avg" =>
        match eval_col_spec fm fuel "avg" root path args cols tables aliases cursor results with
        | .error e => .error e
        | .ok val =>
          let old := (alistGet results.avg (root, path)).getD ⟨fm.zero, 0⟩
          let entry : AggregateAvg F := ⟨fm.add old.sum val, old.count + 1⟩
          .ok (fm.toStr (fm.div entry.sum (fm.ofNat entry.count)),
            { results with avg := (alistUpdate results.avg (root, path) ⟨fm.zero, 0⟩
                (fun e => ⟨fm.add e.sum val, e.count + 1⟩)) })
      | "min" =>
        match eval_col_spec fm fuel "min" root path args cols tables aliases cursor results with
        | .error e => .error e
        | .ok val =>
          let newMin := fm.fmin ((alistGet results.min (root, path)).getD fm.zero) val
          .ok (fm.toStr newMin,
            { results with min := alistUpdate results.min (root, path) fm.zero (fm.fmin · val) })
      | "max" =>
        match eval_col_spec fm fuel "max" root path args cols tables aliases cursor results with
        | .error e => .error e
        | .ok val =>
          let newMax := fm.fmax ((alistGet results.max (root, path)).getD fm.zero) val
          .ok (fm.toStr newMax,
            { results with max := alistUpdate results.max (root, path) fm.zero (fm.fmax · val) })
      | _ => .error (.unknownFunction name)
    | _ =>
      match eval_expr fm fuel root path expr cols tables aliases cursor results with
      | .error e => .error (.eval e)
      | .ok v => .ok (v, results)

/-- Detection of a true aggregate call (`find_aggregate_fn` in `eval.rs`); the
source returns the node address, used only for its presence. -/
def find_aggregate_fn : Expr → Bool
  | .aggregateFn name _ =>
    (match asciiLower name with
     | "count" => true
     | "sum" => true
     | "avg" => true
     | "max" => true
     | "min" => true
     | _ => false)
  | .binary _ lhs rhs => find_aggregate_fn lhs || find_aggregate_fn rhs
  | .unary _ operand => find_aggregate_fn operand
  | _ => false

/-- Projection expansion (`extend_colspecs` in `select.rs`): a wildcard
expands to one qualified `Column` per (table, schema column); the header
collects column names and expression renderings. -/
def extend_colspecs (tables : List Table) (colspecs : List ColSpecifier) :
    List Expr × List String :=
  colspecs.foldl (fun acc spec =>
    match spec with
    | .wildcard =>
      tables.foldl (fun acc t =>
        t.schema.foldl (fun acc col =>
          (acc.1 ++ [Expr.column ⟨some t.name, col.name⟩], acc.2 ++ [col.name])) acc) acc
    | .expr e => (acc.1 ++ [e], acc.2 ++ [exprToString e])) ([], [])

/-- One pass of the cursor-increment while loop (`incr_row_cursor` in
`select.rs`), recursing leftwards on carry; the boolean is the Rust return
value, and the returned cursor reflects the in-place mutations even when the
increment reports exhaustion. -/
def incrGo (counts : List Nat) : Nat → List RowCursor → Bool × List RowCursor
  | digit, cursor =>
    let rc := cursor.getD digit ⟨none, false⟩
    match rc.row with
    | none =>
      match digit with
      | 0 => (false, cursor)
      | d+1 => incrGo counts d (cursor.set (d+1) ⟨some 0, false⟩)
    | some ri =>
      let count := counts.getD digit 0
      (true, cursor.set digit ⟨if ri + 1 < count then some (ri + 1) else none, rc.shown⟩)

/-- Cursor increment (`incr_row_cursor`): mixed-radix increment starting at
the rightmost digit. -/
def incr_row_cursor (cursor : List RowCursor) (counts : List Nat) : Bool × List RowCursor :=
  incrGo counts (cursor.length - 1) cursor

/-- Evaluation of the join conditions (`.all` over `ctx.sql.join` inside
`check_print`): `CursorNone` is a pass for a LEFT join whose padded row has
not been shown, other errors count as a non-match (panics propagate). -/
def joinCondEval {F : Type} (fm : FloatModel F) (efuel : Nat) (cols : List Expr)
    (tables : List Table) (aliases : List (String × Nat)) (jan : List Bool)
    (cursor : List RowCursor) : List (Nat × JoinClause) → Except ExecError Bool
  | [] => .ok true
  | (i, join) :: rest =>
    match eval_expr fm efuel (.joinCond i) [] join.condition cols tables aliases cursor {} with
    | .ok val =>
      if coerce_bool val then joinCondEval fm efuel cols tables aliases jan cursor rest
      else .ok false
    | .error (.cursorNone tidx) =>
      if jan.getD tidx false && !((cursor.getD tidx ⟨none, false⟩).shown) then
        joinCondEval fm efuel cols tables aliases jan cursor rest
      else .ok false
    | .error e => if e.isPanic then .error (.eval e) else .ok false

/-- Row admission check (`check_print` in `select.rs`): the join gate
(including LEFT-JOIN padding) followed by the WHERE condition; WHERE is only
evaluated when the join gate passes, and its errors propagate. -/
def check_print {F : Type} (fm : FloatModel F) (efuel : Nat) (sql : SelectStmt)
    (cols : List Expr) (tables : List Table) (aliases : List (String × Nat))
    (jan : List Bool) (hasLeft : Bool) (cursor : List RowCursor) : Except ExecError Bool :=
  let joinCondRes : Except ExecError Bool :=
    if sql.join.isEmpty then .ok (cursor.all (fun r => r.row.isSome))
    else
      match joinCondEval fm efuel cols tables aliases jan cursor sql.join.enum with
      | .error e => .error e
      | .ok a =>
        .ok (a || (hasLeft && (cursor.zip jan).all (fun p =>
          if p.2 then p.1.row.isNone && !p.1.shown else p.1.row.isSome)))
  match joinCondRes with
  | .error e => .error e
  | .ok joinCond =>
    if joinCond then
      match sql.condition with
      | none => .ok true
      | some cond =>
        match eval_expr fm efuel .whereCond [] cond cols tables aliases cursor {} with
        | .ok v => .ok (coerce_bool v)
        | .error e => .error (.eval e)
    else .ok false

/-- Evaluation of all projected cells for one row (the `values` collection in
`exec_select_sub`): a `CursorNone` becomes an empty cell, any other error
aborts. -/
def eval_cells {F : Type} (fm : FloatModel F) (efuel : Nat) (cols : List Expr)
    (tables : List Table) (aliases : List (String × Nat)) (cursor : List RowCursor)
    (aggs : AggregateResult F) : Except ExecError (List String) :=
  cols.enum.mapM (fun p =>
    match eval_expr fm efuel (.col p.1) [] p.2 cols tables aliases cursor aggs with
    | .ok v => Except.ok v
    | .error (.cursorNone _) => Except.ok ""
    | .error e => Except.error (ExecError.eval e))

/-- Main loop of the non-aggregated case (`exec_select_sub`, lines 600-635):
LIMIT break at the top, admission check, shown-marking, cell evaluation,
OFFSET gating, cursor increment.  Returns the rows emitted from this state
on. -/
def nonAggLoop {F : Type} (fm : FloatModel F) (efuel : Nat) (sql : SelectStmt)
    (cols : List Expr) (tables : List Table) (aliases : List (String × Nat))
    (jan : List Bool) (hasLeft : Bool) (counts : List Nat) :
    Nat → List RowCursor → Nat → Except ExecError (List (List String))
  | 0, _, _ => .error .fuel
  | fuel+1, cursor, printed =>
    let limitBreak : Bool :=
      match sql.limit with
      | some l => decide (sql.offset.getD 0 + l ≤ printed)
      | none => false
    if limitBreak then .ok []
    else
      match check_print fm efuel sql cols tables aliases jan hasLeft cursor with
      | .error e => .error e
      | .ok true =>
        let cursor' := cursor.map (fun rc => ⟨rc.row, true⟩)
        match eval_cells fm efuel cols tables aliases cursor' {} with
        | .error e => .error e
        | .ok values =>
          let emitted := if sql.offset.getD 0 ≤ printed then [values] else []
          match incr_row_cursor cursor' counts with
          | (false, _) => .ok emitted
          | (true, c2) =>
            match nonAggLoop fm efuel sql cols tables aliases jan hasLeft counts fuel c2
                (printed + 1) with
            | .error e => .error e
            | .ok more => .ok (emitted ++ more)
      | .ok false =>
        match incr_row_cursor cursor counts with
        | (false, _) => .ok []
        | (true, c2) => nonAggLoop fm efuel sql cols tables aliases jan hasLeft counts fuel c2 printed

/-- Inner `for col in cols` of the aggregated loop: each projected column is
folded after re-checking the admission predicate (the check is stateless, so
every column sees the same verdict). -/
def aggFoldCols {F : Type} (fm : FloatModel F) (efuel : Nat) (sql : SelectStmt)
    (cols : List Expr) (tables : List Table) (aliases : List (String × Nat))
    (jan : List Bool) (hasLeft : Bool) (cursor : List RowCursor) :
    List (Nat × Expr) → AggregateResult F → Except ExecError (AggregateResult F)
  | [], results => .ok results
  | (i, col) :: rest, results =>
    match check_print fm efuel sql cols tables aliases jan hasLeft cursor with
    | .error e => .error e
    | .ok true =>
      match aggregate_expr fm efuel (.col i) [] col cols tables aliases cursor results with
      | .error e => .error e
      | .ok (_, results') =>
        aggFoldCols fm efuel sql cols tables aliases jan hasLeft cursor rest results'
    | .ok false => aggFoldCols fm efuel sql cols tables aliases jan hasLeft cursor rest results

/-- Aggregated loop (`exec_select_sub`, lines 572-586): fold the accumulators
per combination, stop as soon as the increment fails or any cursor reads
`none`; the final cursor (after the failed/padded increment) is returned for
the final projection evaluation. -/
def aggLoop {F : Type} (fm : FloatModel F) (efuel : Nat) (sql : SelectStmt)
    (cols : List Expr) (tables : List Table) (aliases : List (String × Nat))
    (jan : List Bool) (hasLeft : Bool) (counts : List Nat) :
    Nat → List RowCursor → AggregateResult F →
    Except ExecError (AggregateResult F × List RowCursor)
  | 0, _, _ => .error .fuel
  | fuel+1, cursor, results =>
    match aggFoldCols fm efuel sql cols tables aliases jan hasLeft cursor cols.enum results with
    | .error e => .error e
    | .ok results' =>
      match incr_row_cursor cursor counts with
      | (false, c2) => .ok (results', c2)
      | (true, c2) =>
        if c2.any (fun r => r.row.isNone) then .ok (results', c2)
        else aggLoop fm efuel sql cols tables aliases jan hasLeft counts fuel c2 results'

/-- Row-combination executor (`exec_select_sub`).  The upfront schema check
models the Rust division-by-zero panic in the row-count computation. -/
def exec_select_sub {F : Type} (fm : FloatModel F) (efuel lfuel : Nat) (sql : SelectStmt)
    (tables : List Table) (aliases : List (String × Nat)) (cols : List Expr) :
    Except ExecError (List (List String)) :=
  if tables.any (fun t => t.schema.isEmpty) then .error (.panicked "division by zero")
  else
    let jan := false :: sql.join.map (fun j => j.kind == JoinKind.left)
    let counts := tables.map (fun t => t.data.length / t.schema.length)
    let cursor0 := List.replicate tables.length RowCursor.init
    let hasLeft := jan.any id
    if cols.any find_aggregate_fn then
      match aggLoop fm efuel sql cols tables aliases jan hasLeft counts lfuel cursor0 {} with
      | .error e => .error e
      | .ok (results, finalCursor) =>
        match eval_cells fm efuel cols tables aliases finalCursor results with
        | .error e => .error e
        | .ok values => .ok [values]
    else nonAggLoop fm efuel sql cols tables aliases jan hasLeft counts lfuel cursor0 0

/-- Stable sort of buffered rows by the synthetic key column (`sort_by` in
`exec_select`); `desc` reverses the comparator. -/
def sortRows (colIdx : Nat) (ord : SortOrdering) (rows : List (List String)) :
    List (List String) :=
  rows.mergeSort (fun lhs rhs =>
    let l := lhs.getD colIdx ""
    let r := rhs.getD colIdx ""
    match ord with
    | .asc => !strLt r l
    | .desc => !strLt l r)

/-- Query entry point (`exec_select` in `select.rs`): resolve tables and
aliases, expand projections, emit the header, then either the ORDER BY
buffered path (sort, then LIMIT/OFFSET only when LIMIT is present) or the
direct path.  Output is the emitted row list, header first. -/
def exec_select {F : Type} (fm : FloatModel F) (efuel lfuel : Nat) (db : Database)
    (sql : SelectStmt) : Except ExecError (List (List String)) :=
  match dbGet db sql.table.name with
  | none => .error (.tableNotFound sql.table.name)
  | some table =>
    match sql.join.mapM (fun j =>
      match dbGet db j.table.name with
      | some t => Except.ok (t, j.table.aliasName)
      | none => Except.error (ExecError.tableNotFound j.table.name)) with
    | .error e => .error e
    | .ok joinedTail =>
      let withAliases := (table, sql.table.aliasName) :: joinedTail
      let aliases0 : List (String × Nat) :=
        match sql.table.aliasName with
        | some a => [(a, 0)]
        | none => []
      let aliases := withAliases.enum.foldl (fun m p =>
        match p.2.2 with
        | some a => aliasInsert m a p.1
        | none => m) aliases0
      let tables := withAliases.map (·.1)
      match sql.ordering with
      | some orderBy =>
        let ec := extend_colspecs tables sql.cols
        let cols := ec.1 ++ [orderBy.expr]
        let colIdx := ec.1.length
        let subsql := { sql with ordering := none, limit := none, offset := none }
        match exec_select_sub fm efuel lfuel subsql tables aliases cols with
        | .error e => .error e
        | .ok rows =>
          let sorted := sortRows colIdx orderBy.ordering rows
          let body :=
            match sql.limit with
            | some l => ((sorted.drop (sql.offset.getD 0)).take l).map (fun r => r.dropLast)
            | none => sorted.map (fun r => r.dropLast)
          .ok (ec.2 :: body)
      | none =>
        let ec := extend_colspecs tables sql.cols
        match exec_select_sub fm efuel lfuel sql tables aliases ec.1 with
        | .error e => .error e
        | .ok rows => .ok (ec.2 :: rows)

/-! Instrumented variants for the aggregation-refinement claim: the same
loops, collecting the row components of every cursor combination that passes
the admission check (the combinations the aggregated loop folds over, and
the combinations at which the non-aggregated loop would emit — its gate,
taken independently of the cell evaluation). -/

/-- Row components of a cursor (the combination identity, `shown` aside). -/
def cursorRows (cursor : List RowCursor) : List (Option Nat) :=
  cursor.map (·.row)

/-- Gate trace of the non-aggregated main loop run without LIMIT/OFFSET: the
combinations at which the loop passes the join-plus-WHERE check and reaches
its emission point.  Mirrors `nonAggLoop` (shown-marking included), with the
cell evaluation elided. -/
def nonAggGateTrace {F : Type} (fm : FloatModel F) (efuel : Nat) (sql : SelectStmt)
    (cols : List Expr) (tables : List Table) (aliases : List (String × Nat))
    (jan : List Bool) (hasLeft : Bool) (counts : List Nat) :
    Nat → List RowCursor → Except ExecError (List (List (Option Nat)))
  | 0, _ => .error .fuel
  | fuel+1, cursor =>
    match check_print fm efuel sql cols tables aliases jan hasLeft cursor with
    | .error e => .error e
    | .ok true =>
      let cursor' := cursor.map (fun rc => ⟨rc.row, true⟩)
      match incr_row_cursor cursor' counts with
      | (false, _) => .ok [cursorRows cursor]
      | (true, c2) =>
        match nonAggGateTrace fm efuel sql cols tables aliases jan hasLeft counts fuel c2 with
        | .error e => .error e
        | .ok more => .ok (cursorRows cursor :: more)
    | .ok false =>
      match incr_row_cursor cursor counts with
      | (false, _) => .ok []
      | (true, c2) => nonAggGateTrace fm efuel sql cols tables aliases jan hasLeft counts fuel c2

/-- Trace of the aggregated loop: the combinations at which the fold invokes
`aggregate_expr` (one entry per combination).  Mirrors `aggLoop`, including
the abort behaviour of the fold. -/
def aggLoopTrace {F : Type} (fm : FloatModel F) (efuel : Nat) (sql : SelectStmt)
    (cols : List Expr) (tables : List Table) (aliases : List (String × Nat))
    (jan : List Bool) (hasLeft : Bool) (counts : List Nat) :
    Nat → List RowCursor → AggregateResult F →
    Except ExecError (List (List (Option Nat)))
  | 0, _, _ => .error .fuel
  | fuel+1, cursor, results =>
    match check_print fm efuel sql cols tables aliases jan hasLeft cursor with
    | .error e => .error e
    | .ok pass =>
      match aggFoldCols fm efuel sql cols tables aliases jan hasLeft cursor cols.enum results with
      | .error e => .error e
      | .ok results' =>
        let here := if pass then [cursorRows cursor] else []
        match incr_row_cursor cursor counts with
        | (false, _) => .ok here
        | (true, c2) =>
          if c2.any (fun r => r.row.isNone) then .ok here
          else
            match aggLoopTrace fm efuel sql cols tables aliases jan hasLeft counts fuel c2
                results' with
            | .error e => .error e
            | .ok more => .ok (here ++ more)

/-! Helper definitions used by the theorem statements. -/

/-- The i-th stored row of a table: cells `data[i*s .. (i+1)*s]` in schema
order. -/
def tableRow (t : Table) (i : Nat) : List String :=
  (List.range t.schema.length).map (fun j => t.data.getD (j + i * t.schema.length) "")

/-- Whether a table has a column of the given name. -/
def tableHasCol (t : Table) (name : String) : Bool :=
  t.schema.any (fun s => s.name == name)

/-- The projected expressions a `*` over a single table expands to. -/
def wildcardCols (t : Table) : List Expr :=
  t.schema.map (fun c => Expr.column ⟨some t.name, c.name⟩)

/-- Whether no projection item contains a true aggregate call. -/
def colsNoAgg (specs : List ColSpecifier) : Bool :=
  specs.all (fun cs =>
    match cs with
    | .wildcard => true
    | .expr e => !find_aggregate_fn e)

/-- The statement `SELECT * FROM tname` (no join, WHERE, ordering, limit or
offset). -/
def selectStar (tname : String) : SelectStmt :=
  ⟨[.wildcard], ⟨tname, none⟩, [], none, none, none, none⟩

/-- The projected expression `count(*)`. -/
def countStar : Expr := .aggregateFn "count" [.wildcard]

/-- The statement `SELECT count(*) FROM tname [WHERE cnd]`. -/
def selectCount (tname : String) (cnd : Option Expr) : SelectStmt :=
  ⟨[.expr countStar], ⟨tname, none⟩, [], cnd, none, none, none⟩

/-- The statement `SELECT * FROM nA (INNER|LEFT) JOIN nB ON 'false'`. -/
def selectJoinFalse (nA nB : String) (kind : JoinKind) : SelectStmt :=
  ⟨[.wildcard], ⟨nA, none⟩, [⟨kind, ⟨nB, none⟩, .strLiteral "false"⟩], none, none, none, none⟩

/-- Truth of the WHERE predicate of `selectCount` at row `i`, as the executor
computes it (an evaluation error counts as a non-match here; the theorems
assume error-free evaluation). -/
def c1Pass {F : Type} (fm : FloatModel F) (ef : Nat) (T : Table) (w : Expr) (i : Nat) : Bool :=
  match eval_expr fm ef .whereCond [] w [countStar] [T] [] [⟨some i, false⟩] {} with
  | .ok v => coerce_bool v
  | .error _ => false

/-- Number of rows of `T` the `selectCount` query counts: all rows without a
WHERE clause, the rows satisfying the predicate with one. -/
def c1Matches {F : Type} (fm : FloatModel F) (ef : Nat) (T : Table) : Option Expr → Nat
  | none => T.rows
  | some w => ((List.range T.rows).filter (fun i => c1Pass fm ef T w i)).length

/-- Row admission of the `selectCount` query as a predicate on the row index
(no WHERE clause admits every row). -/
def c1PassB {F : Type} (fm : FloatModel F) (ef : Nat) (T : Table) (cnd : Option Expr)
    (i : Nat) : Bool :=
  match cnd with
  | none => true
  | some w => c1Pass fm ef T w i

/-- One increment of the `count(*)` accumulator entry (projection index 0). -/
def bumpOne {F : Type} (st : AggregateResult F) : AggregateResult F :=
  { st with count := alistUpdate st.count (.col 0, []) 0 (· + 1) }

/-- Iterated increment of the `count(*)` accumulator entry (the effect of `m`
qualifying rows on the aggregate state). -/
def bumpCount {F : Type} (st : AggregateResult F) : Nat → AggregateResult F
  | 0 => st
  | m+1 => bumpOne (bumpCount st m)

/-! Concrete fixtures for counterexamples and witnesses. -/

/-- A three-row table `t(id, name)` (the repository test fixture). -/
def exT : Table := ⟨"t", [⟨"id"⟩, ⟨"name"⟩], ["1", "a", "2", "b", "3", "c"]⟩

/-- A catalog holding `exT`. -/
def exDb : Database := [("t", exT)]

/-- An empty table (a header-only CSV): one column, no rows. -/
def exEmpty : Table := ⟨"e", [⟨"id"⟩], []⟩

/-- A catalog holding `exEmpty`. -/
def exDbEmpty : Database := [("e", exEmpty)]

/-- A table whose schema repeats a column name. -/
def exDup : Table := ⟨"d", [⟨"a"⟩, ⟨"a"⟩], ["x", "y"]⟩

/-- A catalog holding `exDup`. -/
def exDbDup : Database := [("d", exDup)]

/-- Outer join fixture: two rows, one column. -/
def exA : Table := ⟨"A", [⟨"a"⟩], ["a1", "a2"]⟩

/-- Inner join fixture: one row, one column. -/
def exB : Table := ⟨"B", [⟨"b"⟩], ["b1"]⟩

/-- A catalog holding `exA` and `exB`. -/
def exDbAB : Database := [("A", exA), ("B", exB)]

/-- Two one-column tables sharing the column name `x` (ambiguity fixture). -/
def exA2 : Table := ⟨"A2", [⟨"x"⟩], ["1"]⟩

/-- Second table of the ambiguity fixture. -/
def exB2 : Table := ⟨"B2", [⟨"x"⟩], ["1"]⟩

/-- An empty outer table for the LEFT JOIN counterexample. -/
def exAEmpty : Table := ⟨"A0", [⟨"a"⟩], []⟩

/-- A catalog holding `exAEmpty` and `exB`. -/
def exDbA0B : Database := [("A0", exAEmpty), ("B", exB)]

/-- A join condition referencing a column no table has. -/
def badJoinCond : Expr := .binary .eq (.column ⟨none, "nosuch"⟩) (.strLiteral "x")

/-- The statement `SELECT * FROM A INNER JOIN B ON nosuch = 'x'`. -/
def selectBadJoin : SelectStmt :=
  ⟨[.wildcard], ⟨"A", none⟩, [⟨.inner, ⟨"B", none⟩, badJoinCond⟩], none, none, none, none⟩

/-- The statement `SELECT count(*) FROM A INNER JOIN B ON 'true'`. -/
def selectCountJoin : SelectStmt :=
  ⟨[.expr countStar], ⟨"A", none⟩, [⟨.inner, ⟨"B", none⟩, .strLiteral "true"⟩],
    none, none, none, none⟩

/-! Embedding of the statement parser of `src/parser.rs` (a nom-combinator
recursive-descent parser).  That file predates the executor: it produces a
`SelectStmt` with only `cols`/`table`/`join`/`condition` fields and a `Cols`
projection type, and its `statement` stops after the optional WHERE clause.
Parsers map a character list to `Option (rest, value)`; `none` is a nom
error (callers backtrack by reusing their own input).  Fuel bounds the
recursion of the expression grammar and of `many0`. -/

namespace OldParser

/-- The `Cols` projection type the stale parser imports from `select`. -/
inductive Cols where
  | wildcard
  | list (cols : List Column)
deriving Repr

/-- The 4-field `SelectStmt` the stale parser constructs (`crate::SelectStmt`
as `main.rs`-era code declared it). -/
structure OldSelectStmt where
  cols : Cols
  table : TableSpecifier
  join : List JoinClause
  condition : Option Expr

/-- The `Statement` wrapper. -/
inductive Statement where
  | select (s : OldSelectStmt)

/-- Character class of nom `alpha1`. -/
def isAlphaCh (c : Char) : Bool :=
  ('a' ≤ c && c ≤ 'z') || ('A' ≤ c && c ≤ 'Z')

/-- Character class of nom `alphanumeric1`. -/
def isAlphaNumCh (c : Char) : Bool :=
  isAlphaCh c || ('0' ≤ c && c ≤ '9')

/-- Character class of nom `multispace0`/`multispace1`. -/
def isSpaceCh (c : Char) : Bool :=
  c == ' ' || c == '\t' || c == '\n' || c == '\r'

/-- `multispace0`: skip any amount of whitespace. -/
def skipMs0 (i : List Char) : List Char :=
  i.dropWhile isSpaceCh

/-- `multispace1`: require at least one whitespace character. -/
def skipMs1 (i : List Char) : Option (List Char) :=
  match i with
  | c :: rest => if isSpaceCh c then some (rest.dropWhile isSpaceCh) else none
  | [] => none

/-- nom `tag`: exact prefix match. -/
def tagP (kw : String) (i : List Char) : Option (List Char) :=
  let n := kw.data.length
  if i.take n == kw.data then some (i.drop n) else none

/-- nom `tag_no_case`: ASCII case-insensitive prefix match, returning the
matched slice. -/
def tagNoCase (kw : String) (i : List Char) : Option (List Char × String) :=
  let n := kw.data.length
  let pre := i.take n
  if pre.length == n && pre.map asciiLowerChar == kw.data.map asciiLowerChar then
    some (i.drop n, String.mk pre)
  else none

/-- `token` of `parser.rs`: an identifier (alpha or underscore first, then
alphanumeric or underscore), surrounded by optional whitespace. -/
def token (i : List Char) : Option (List Char × String) :=
  match skipMs0 i with
  | [] => none
  | c :: rest =>
    if isAlphaCh c || c == '_' then
      let core := c :: rest.takeWhile (fun d => isAlphaNumCh d || d == '_')
      some (skipMs0 (rest.dropWhile (fun d => isAlphaNumCh d || d == '_')), String.mk core)
    else none

/-- `ident` of `parser.rs`: a token that is not exactly `FROM`. -/
def ident (i : List Char) : Option (List Char × String) :=
  match token i with
  | none => none
  | some (r, id) => if id == "FROM" then none else some (r, id)

/-- `delimited(multispace0, tag_no_case kw, multispace0)`. -/
def kwDelim (kw : String) (i : List Char) : Option (List Char × String) :=
  match tagNoCase kw (skipMs0 i) with
  | none => none
  | some (r, s) => some (skipMs0 r, s)

/-- `delimited(multispace0, tag t, multispace0)`. -/
def symDelim (t : String) (i : List Char) : Option (List Char) :=
  match tagP t (skipMs0 i) with
  | none => none
  | some r => some (skipMs0 r)

/-- `str_literal` of `parser.rs`: a single-quoted literal with no escapes. -/
def str_literal (i : List Char) : Option (List Char × String) :=
  match tagP "'" (skipMs0 i) with
  | none => none
  | some r =>
    let body := r.takeWhile (fun c => c != '\'')
    match tagP "'" (r.dropWhile (fun c => c != '\'')) with
    | none => none
    | some r2 => some (r2, String.mk body)

/-- `column` of `parser.rs`: optional `table .` qualifier, then an
identifier. -/
def column (i : List Char) : Option (List Char × Column) :=
  let qual : Option (List Char × String) :=
    match ident i with
    | none => none
    | some (r, tbl) =>
      match symDelim "." r with
      | none => none
      | some r2 => some (r2, tbl)
  match qual with
  | some (r, tbl) => (ident r).map fun p => (p.1, ⟨some tbl, p.2⟩)
  | none => (ident i).map fun p => (p.1, ⟨none, p.2⟩)

/-- `comparison_op` of `parser.rs`: two-character forms first. -/
def comparison_op (i : List Char) : Option (List Char × BinOp) :=
  let r0 := skipMs0 i
  match tagP "<=" r0 with
  | some r => some (skipMs0 r, .le)
  | none =>
    match tagP ">=" r0 with
    | some r => some (skipMs0 r, .ge)
    | none =>
      match tagP "<>" r0 with
      | some r => some (skipMs0 r, .ne)
      | none =>
        match tagP "=" r0 with
        | some r => some (skipMs0 r, .eq)
        | none =>
          match tagP "<" r0 with
          | some r => some (skipMs0 r, .lt)
          | none =>
            match tagP ">" r0 with
            | some r => some (skipMs0 r, .gt)
            | none => none

/-- `delimited(multispace0, alt(tag_no_case AND, tag_no_case OR), multispace0)`
of `logical_ex`. -/
def andOrOp (i : List Char) : Option (List Char × BinOp) :=
  match kwDelim "AND" i with
  | some (r, _) => some (r, .and)
  | none =>
    match kwDelim "OR" i with
    | some (r, _) => some (r, .or)
    | none => none

mutual

/-- `expression` of `parser.rs`. -/
def expression : Nat → List Char → Option (List Char × Expr)
  | 0, _ => none
  | fuel+1, i => logical_ex fuel i

/-- `logical_ex`: a comparison, then a left-associative fold of AND/OR. -/
def logical_ex : Nat → List Char → Option (List Char × Expr)
  | 0, _ => none
  | fuel+1, i =>
    match comparison_ex fuel i with
    | none => none
    | some (r, lhs) => logicalFold fuel lhs r

/-- The `fold_many0` of `logical_ex`: stops (input untouched) when the
operator or its right operand fails. -/
def logicalFold : Nat → Expr → List Char → Option (List Char × Expr)
  | 0, _, _ => none
  | fuel+1, acc, i =>
    match andOrOp i with
    | none => some (i, acc)
    | some (r, op) =>
      match comparison_ex fuel r with
      | none => some (i, acc)
      | some (r2, rhs) => logicalFold fuel (Expr.binary op acc rhs) r2

/-- `comparison_ex`: a term, optionally compared with a second term (a
missing operator backtracks, a missing right term is an error). -/
def comparison_ex : Nat → List Char → Option (List Char × Expr)
  | 0, _ => none
  | fuel+1, i =>
    match term fuel i with
    | none => none
    | some (r, lhs) =>
      match comparison_op r with
      | none => some (r, lhs)
      | some (r2, op) =>
        match term fuel r2 with
        | none => none
        | some (r3, rhs) => some (r3, .binary op lhs rhs)

/-- `not` of `parser.rs` (renamed: `not` is taken in Lean). -/
def notEx : Nat → List Char → Option (List Char × Expr)
  | 0, _ => none
  | fuel+1, i =>
    match kwDelim "NOT" i with
    | none => none
    | some (r, _) =>
      match comparison_ex fuel r with
      | none => none
      | some (r2, e) => some (r2, .unary .not e)

/-- `term`: NOT, parentheses, string literal, or column reference. -/
def term : Nat → List Char → Option (List Char × Expr)
  | 0, _ => none
  | fuel+1, i =>
    match notEx fuel i with
    | some p => some p
    | none =>
      match parenthesesEx fuel i with
      | some p => some p
      | none =>
        match str_literal i with
        | some (r, lit) => some (r, .strLiteral lit)
        | none =>
          match column i with
          | some (r, c) => some (r, .column c)
          | none => none

/-- `parentheses` of `parser.rs`. -/
def parenthesesEx : Nat → List Char → Option (List Char × Expr)
  | 0, _ => none
  | fuel+1, i =>
    match symDelim "(" i with
    | none => none
    | some r =>
      match expression fuel r with
      | none => none
      | some (r2, e) =>
        match symDelim ")" r2 with
        | none => none
        | some r3 => some (r3, e)

end

/-- `table_specifier`: a token with an optional `AS alias` (the `AS` keyword
requires at least one following whitespace character). -/
def table_specifier (i : List Char) : Option (List Char × TableSpecifier) :=
  match token i with
  | none => none
  | some (r, name) =>
    let aliasTry : Option (List Char × String) :=
      match tagNoCase "AS" (skipMs0 r) with
      | none => none
      | some (r1, _) =>
        match skipMs1 r1 with
        | none => none
        | some r2 =>
          match token r2 with
          | none => none
          | some (r3, a) => some (r3, a)
    match aliasTry with
    | some (r3, a) => some (r3, ⟨name, some a⟩)
    | none => some (r, ⟨name, none⟩)

/-- `from_table`: the FROM keyword, then a table specifier. -/
def from_table (i : List Char) : Option (List Char × TableSpecifier) :=
  match kwDelim "FROM" i with
  | none => none
  | some (r, _) => table_specifier r

/-- `join` of `parser.rs`: INNER or LEFT, JOIN, a table specifier, ON and a
condition. -/
def joinP (fuel : Nat) (i : List Char) : Option (List Char × JoinClause) :=
  let kindTag : Option (List Char × String) :=
    match tagNoCase "INNER" (skipMs0 i) with
    | some p => some p
    | none => tagNoCase "LEFT" (skipMs0 i)
  match kindTag with
  | none => none
  | some (r0, kw) =>
    match skipMs1 r0 with
    | none => none
    | some r =>
      match kwDelim "JOIN" r with
      | none => none
      | some (r1, _) =>
        match table_specifier r1 with
        | none => none
        | some (r2, table) =>
          match kwDelim "ON" r2 with
          | none => none
          | some (r3, _) =>
            match expression fuel r3 with
            | none => none
            | some (r4, condition) =>
              some (r4, ⟨if eqIgnoreAsciiCase kw "INNER" then .inner else .left,
                table, condition⟩)

/-- `many0(join)` of `statement`. -/
def many0Join : Nat → List Char → List Char × List JoinClause
  | 0, i => (i, [])
  | fuel+1, i =>
    match joinP fuel i with
    | none => (i, [])
    | some (r, j) =>
      let rest := many0Join fuel r
      (rest.1, j :: rest.2)

/-- `where_clause`: the WHERE keyword, then a condition. -/
def where_clause (fuel : Nat) (i : List Char) : Option (List Char × Expr) :=
  match kwDelim "WHERE" i with
  | none => none
  | some (r, _) => expression fuel r

/-- `columns_wildcard`: a bare `*` projection. -/
def columns_wildcard (i : List Char) : Option (List Char × Cols) :=
  match symDelim "*" i with
  | none => none
  | some r => some (r, .wildcard)

/-- The `fold_many0` of `columns`: further comma-separated columns. -/
def columnsFold : Nat → List Column → List Char → List Char × List Column
  | 0, acc, i => (i, acc)
  | fuel+1, acc, i =>
    match symDelim "," i with
    | none => (i, acc)
    | some r =>
      match column r with
      | none => (i, acc)
      | some (r2, c) => columnsFold fuel (acc ++ [c]) r2

/-- `columns`: one or more comma-separated column references. -/
def columns (fuel : Nat) (i : List Char) : Option (List Char × Cols) :=
  match column i with
  | none => none
  | some (r, first) =>
    let rest := columnsFold fuel [first] r
    some (rest.1, .list rest.2)

/-- `statement` of `parser.rs`: SELECT, the projection, FROM, any joins and
an optional WHERE — nothing further (no ORDER BY, LIMIT or OFFSET). -/
def statement (fuel : Nat) (src : String) : Option (String × Statement) :=
  match token src.data with
  | none => none
  | some (r, directive) =>
    if asciiLower directive == "select" then
      let colsRes : Option (List Char × Cols) :=
        match columns_wildcard r with
        | some p => some p
        | none => columns fuel r
      match colsRes with
      | none => none
      | some (r1, cols) =>
        match from_table r1 with
        | none => none
        | some (r2, table) =>
          let joins := many0Join fuel r2
          let condRes : Option (List Char) × Option Expr :=
            match where_clause fuel joins.1 with
            | some (r4, c) => (some r4, some c)
            | none => (none, none)
          let rFinal := (condRes.1).getD joins.1
          some (String.mk rFinal, .select ⟨cols, table, joins.2, condRes.2⟩)
    else none

end OldParser

/-! Theorems. -/

/-- C9 counterexample: the claim says an out-of-bounds column index yields
`none`, but `get(0, 2)` on the two-column table `exT` returns `some "2"` —
the first cell of row 1, a different row. -/
theorem c9_counterexample :
    exT.schema.length ≤ 2 ∧ exT.get 0 2 = some "2" ∧ exT.get 0 2 ≠ none ∧
      (tableRow exT 1).get? 0 = some "2" := by
  refine ⟨by decide, rfl, by decide, by decide⟩

/-- C9 amended: `get(row, col)` is exactly the flat lookup
`data.get?(col + row*s)`; it is `none` precisely when the flat index is past
the end of `data` — so in-bounds accesses return the stored cell, row
overflow yields absence, but a column index `≥ s` can reach a later row. -/
theorem c9_get_flat (t : Table) (row col : Nat) :
    t.get row col = t.data.get? (col + row * t.schema.length) ∧
      (t.get row col = none ↔ t.data.length ≤ col + row * t.schema.length) := by
  refine ⟨rfl, ?_⟩
  simp [Table.get, List.get?_eq_none]

/-- C10: with ORDER BY present and LIMIT absent, `exec_select` never reads
the offset — the output with `OFFSET j` equals the output with no offset,
every sorted row being emitted. -/
theorem c10_order_without_limit_ignores_offset {F : Type} (fm : FloatModel F)
    (ef lf : Nat) (db : Database) (cols : List ColSpecifier) (table : TableSpecifier)
    (join : List JoinClause) (condition : Option Expr) (ob : OrderBy) (j : Nat) :
    exec_select fm ef lf db ⟨cols, table, join, condition, some ob, none, some j⟩ =
      exec_select fm ef lf db ⟨cols, table, join, condition, some ob, none, none⟩ := rfl

/-- C5: the `statement` parser of `parser.rs` stops after the optional WHERE
clause.  On `SELECT * FROM t LIMIT 1` it succeeds with the unparsed
remainder `LIMIT 1` (not empty) and a 4-field statement with no
ordering/limit/offset, contradicting the spec grammar
`statement := SELECT cols FROM table_spec join* where? order? limit? offset?`. -/
theorem c5_parser_stops_before_limit :
    OldParser.statement 100 "SELECT * FROM t LIMIT 1" =
      some ("LIMIT 1", .select ⟨.wildcard, ⟨"t", none⟩, [], none⟩) ∧
      ("LIMIT 1" : String) ≠ "" := by
  refine ⟨rfl, by decide⟩

/-- C1 counterexample: on an empty table (`rows = 0`) the aggregated loop
still visits the initial cursor once, so `SELECT count(*) FROM e` emits the
cell `"1"`, not the decimal rendering of `rows(e) = 0`. -/
theorem c1_counterexample :
    exec_select unitFloat 10 10 exDbEmpty (selectCount "e" none) =
      .ok [["count(*)"], ["1"]] ∧
    exEmpty.rows = 0 ∧ ("1" : String) ≠ toString exEmpty.rows := by
  refine ⟨rfl, rfl, by decide⟩

/-- C2 counterexample: on a table whose schema repeats the column name `a`,
wildcard expansion resolves both projected columns to the first schema
index, so the emitted row is `["x", "x"]` while the stored row is
`["x", "y"]`. -/
theorem c2_counterexample :
    exec_select unitFloat 10 10 exDbDup (selectStar "d") =
      .ok [["a", "a"], ["x", "x"]] ∧
    tableRow exDup 0 = ["x", "y"] ∧ (["x", "x"] : List String) ≠ ["x", "y"] := by
  refine ⟨rfl, by decide, by decide⟩

/-- C3 counterexample: with `rows(A) = 0` the claim demands a successful
result with 0 data rows, but the executor admits the padded combination for
the nonexistent outer row 0 and fails evaluating its cells:
`SELECT * FROM A0 LEFT JOIN B ON 'false'` returns a `RowNotFound` error. -/
theorem c3_counterexample :
    exec_select unitFloat 10 10 exDbA0B (selectJoinFalse "A0" "B" .left) =
      .error (.eval (.rowNotFound 0)) ∧
    exAEmpty.rows = 0 := by
  refine ⟨rfl, rfl⟩

/-- C6 counterexample: the ON condition `nosuch = 'x'` evaluates to a
`ColNotFound` error at every combination, yet
`SELECT * FROM A INNER JOIN B ON nosuch = 'x'` completes successfully (the
error is absorbed as a non-matching row), contradicting the claim that any
non-`CursorNone` evaluation error aborts the query. -/
theorem c6_counterexample :
    eval_expr unitFloat 5 (.joinCond 0) [] badJoinCond
      (extend_colspecs [exA, exB] [.wildcard]).1 [exA, exB] []
      [RowCursor.init, RowCursor.init] {} = .error (.colNotFound "nosuch") ∧
    exec_select unitFloat 5 30 exDbAB selectBadJoin = .ok [["a", "b"]] := by
  refine ⟨rfl, rfl⟩

/-- C8 counterexample: in the aggregated path LIMIT/OFFSET are never
consulted: `SELECT count(*) FROM t LIMIT 0` still emits one data row, while
positions `[0, 0)` of the un-limited result contain no rows. -/
theorem c8_counterexample :
    exec_select unitFloat 10 10 exDb { selectCount "t" none with limit := some 0 } =
      .ok [["count(*)"], ["3"]] ∧
    exec_select unitFloat 10 10 exDb (selectCount "t" none) =
      .ok [["count(*)"], ["3"]] ∧
    ¬ ((1 : Nat) ≤ 0) := by
  refine ⟨rfl, rfl, by decide⟩

/-- C4 counterexample: for `SELECT count(*) FROM A INNER JOIN B ON 'true'`
over a 2-row table A and a 1-row table B, the aggregated loop folds over the
single combination `[0, 0]` (it stops as soon as a cursor reads `none`),
while the non-aggregated gate passes at six combinations — the multisets
differ. -/
theorem c4_counterexample :
    aggLoopTrace unitFloat 10 selectCountJoin [countStar] [exA, exB] [] [false, false]
      false [2, 1] 10 [RowCursor.init, RowCursor.init] {} =
      .ok [[some 0, some 0]] ∧
    nonAggGateTrace unitFloat 10 selectCountJoin [countStar] [exA, exB] [] [false, false]
      false [2, 1] 10 [RowCursor.init, RowCursor.init] =
      .ok [[some 0, some 0], [some 0, none], [some 1, some 0], [some 1, none],
        [none, some 0], [none, none]] ∧
    (([[some 0, some 0]] : List (List (Option Nat))) : Multiset (List (Option Nat))) ≠
      ([[some 0, some 0], [some 0, none], [some 1, some 0], [some 1, none],
        [none, some 0], [none, none]] : List (List (Option Nat))) := by
  refine ⟨rfl, rfl, by decide⟩

/-- C6 amended: failures outside join conditions do abort the query
synchronously: (a) a WHERE evaluation error surfaces from `check_print`
whenever the join gate passes (join-free form); (b) the main loop propagates
any `check_print` error at the visited combination; (c) a non-`CursorNone`
cell-evaluation error at an admitted combination aborts the loop.  Errors in
a JOIN ON condition are instead absorbed as a non-match (`c6_counterexample`). -/
theorem c6_amended {F : Type} (fm : FloatModel F) (ef : Nat) (sql : SelectStmt)
    (cols : List Expr) (tables : List Table) (aliases : List (String × Nat))
    (jan : List Bool) (hasLeft : Bool) (counts : List Nat) (cursor : List RowCursor)
    (printed lfuel : Nat) :
    (∀ w e, sql.join = [] → cursor.all (fun r => r.row.isSome) = true →
      sql.condition = some w →
      eval_expr fm ef .whereCond [] w cols tables aliases cursor {} = .error e →
      check_print fm ef sql cols tables aliases jan hasLeft cursor = .error (.eval e)) ∧
    (∀ e, sql.limit = none →
      check_print fm ef sql cols tables aliases jan hasLeft cursor = .error e →
      nonAggLoop fm ef sql cols tables aliases jan hasLeft counts (lfuel+1) cursor printed =
        .error e) ∧
    (∀ e, sql.limit = none →
      check_print fm ef sql cols tables aliases jan hasLeft cursor = .ok true →
      eval_cells fm ef cols tables aliases (cursor.map (fun rc => ⟨rc.row, true⟩)) {} =
        .error e →
      nonAggLoop fm ef sql cols tables aliases jan hasLeft counts (lfuel+1) cursor printed =
        .error e) := by
  refine ⟨?_, ?_, ?_⟩
  · intro w e hj hall hc hev
    simp [check_print, hj, hall, hc, hev]
  · intro e hl hck
    simp [nonAggLoop, hl, hck]
  · intro e hl hck hev
    simp [nonAggLoop, hl, hck, hev]

/-- Helper: a schema without the sought name makes the positional search
fail, at any enumeration offset. -/
theorem enumFrom_find?_eq_none_of_not_any (nm : String) :
    ∀ (l : List RowSchema) (k : Nat), l.any (fun s => s.name == nm) = false →
      (l.enumFrom k).find? (fun q => q.2.name == nm) = none := by
  intro l
  induction l with
  | nil => intro k _; rfl
  | cons a tl ih =>
    intro k h
    simp only [List.any_cons, Bool.or_eq_false_iff] at h
    simp only [List.enumFrom_cons, List.find?_cons, h.1]
    exact ih (k+1) h.2

/-- Helper: a schema containing the sought name makes the positional search
succeed, at any enumeration offset. -/
theorem enumFrom_find?_isSome_of_any (nm : String) :
    ∀ (l : List RowSchema) (k : Nat), l.any (fun s => s.name == nm) = true →
      ∃ q, (l.enumFrom k).find? (fun q => q.2.name == nm) = some q := by
  intro l
  induction l with
  | nil => intro k h; simp at h
  | cons a tl ih =>
    intro k h
    by_cases ha : (a.name == nm) = true
    · exact ⟨(k, a), by simp [List.enumFrom_cons, List.find?_cons, ha]⟩
    · simp only [List.any_cons, Bool.or_eq_true_iff] at h
      rcases h with h | h
      · exact absurd h ha
      · obtain ⟨q, hq⟩ := ih (k+1) h
        refine ⟨q, ?_⟩
        simp only [List.enumFrom_cons, List.find?_cons, Bool.not_eq_true] at ha ⊢
        rw [ha]
        exact hq

/-- Helper: the unqualified fold skips every table that lacks the column. -/
theorem find_col_fold_skip (nm : String) :
    ∀ (l : List Table) (k : Nat) (acc : Option ColRef),
      (∀ u ∈ l, tableHasCol u nm = false) →
      List.foldlM (find_col_step nm) acc (l.enumFrom k) = Except.ok acc := by
  intro l
  induction l with
  | nil => intro k acc _; rfl
  | cons a tl ih =>
    intro k acc h
    have ha : (a.schema.enum.find? (fun q => q.2.name == nm)) = none :=
      enumFrom_find?_eq_none_of_not_any nm a.schema 0 (h a (by simp))
    simp only [List.enumFrom_cons, List.foldlM_cons]
    rw [show find_col_step nm acc (k, a) = Except.ok acc by
      simp [find_col_step, ha]]
    exact ih (k+1) acc (fun u hu => h u (by simp [hu]))

/-- C7: on an ambiguous unqualified column the source panics
(`panic!("Column name {}")`, modelled by the `.error` branch of `find_col`)
instead of returning an `AmbiguousColumn` error to the caller; when exactly
one participating table contains the name, `find_col` does yield that table
with its position and the first matching column index. -/
theorem c7_ambiguity_panics :
    find_col [exA2, exB2] [] ⟨none, "x"⟩ = .error "x" ∧
    (∀ (pre post : List Table) (t : Table) (aliases : List (String × Nat)) (nm : String),
      (∀ u ∈ pre, tableHasCol u nm = false) → (∀ u ∈ post, tableHasCol u nm = false) →
      tableHasCol t nm = true →
      find_col (pre ++ t :: post) aliases ⟨none, nm⟩ =
        .ok ((t.schema.enum.find? (fun q => q.2.name == nm)).map
          fun q => ColRef.mk t pre.length q.1)) := by
  constructor
  · rfl
  · intro pre post t aliases nm hpre hpost ht
    obtain ⟨q, hq⟩ := enumFrom_find?_isSome_of_any nm t.schema 0 ht
    have hq' : List.find? (fun q => q.2.name == nm) t.schema.enum = some q := hq
    show List.foldlM (find_col_step nm) none ((pre ++ t :: post).enum) = _
    rw [show (pre ++ t :: post).enum = (pre ++ t :: post).enumFrom 0 from rfl,
      List.enumFrom_append, List.foldlM_append,
      find_col_fold_skip nm pre 0 none hpre]
    simp only [Nat.zero_add]
    show List.foldlM (find_col_step nm) none ((t :: post).enumFrom pre.length) = _
    rw [List.enumFrom_cons, List.foldlM_cons,
      show find_col_step nm none (pre.length, t) =
        Except.ok (some (ColRef.mk t pre.length q.1)) by simp [find_col_step, hq']]
    show List.foldlM (find_col_step nm) (some (ColRef.mk t pre.length q.1))
      (post.enumFrom (pre.length + 1)) = _
    rw [find_col_fold_skip nm post (pre.length + 1) _ hpost, hq']
    rfl

/-- Helper: looking up the key just updated yields the updated value. -/
theorem alistGet_alistUpdate_self {α : Type} (k : AggKey) (d : α) (f : α → α) :
    ∀ (l : List (AggKey × α)),
      alistGet (alistUpdate l k d f) k = some (f ((alistGet l k).getD d)) := by
  intro l
  induction l with
  | nil => simp [alistGet, alistUpdate]
  | cons p rest ih =>
    by_cases h : (p.1 == k) = true
    · simp [alistGet, alistUpdate, h]
    · simp only [Bool.not_eq_true] at h
      simp [alistGet, alistUpdate, h, List.find?_cons] at ih ⊢
      exact ih

/-- Helper: bumping first and iterating equals one more iteration. -/
theorem bumpCount_bumpOne {F : Type} (st : AggregateResult F) :
    ∀ m : Nat, bumpCount (bumpOne st) m = bumpCount st (m + 1) := by
  intro m
  induction m with
  | zero => rfl
  | succ m ih => simp [bumpCount, ih]

/-- Helper: the `count(*)` accumulator after `m` qualifying rows holds `m`
(and no entry at all when `m = 0`). -/
theorem alistGet_bumpCount_empty {F : Type} :
    ∀ m : Nat, alistGet (bumpCount ({} : AggregateResult F) m).count (.col 0, []) =
      if m = 0 then none else some m := by
  intro m
  induction m with
  | zero => rfl
  | succ m ih =>
    simp only [bumpCount, bumpOne, alistGet_alistUpdate_self, ih]
    rcases Nat.eq_zero_or_pos m with h | h
    · subst h; rfl
    · rw [if_neg (by omega)]
      simp [if_neg (by omega : ¬ m = 0)]

/-- Helper: the admission check of the `selectCount` query at row `i`. -/
theorem c1_check {F : Type} (fm : FloatModel F) (ef : Nat) (tname : String) (T : Table)
    (cnd : Option Expr) (i : Nat)
    (hwi : ∀ w, cnd = some w →
      ∃ v, eval_expr fm ef .whereCond [] w [countStar] [T] [] [⟨some i, false⟩] {} = .ok v) :
    check_print fm ef (selectCount tname cnd) [countStar] [T] [] [false] false
      [⟨some i, false⟩] = .ok (c1PassB fm ef T cnd i) := by
  cases cnd with
  | none => rfl
  | some w =>
    obtain ⟨v, hv⟩ := hwi w rfl
    simp [check_print, selectCount, c1PassB, c1Pass, hv]

/-- Helper: the aggregated loop of the `selectCount` query, entered at row
`i`, folds the counter over the remaining qualifying rows and stops with the
cursor at `none`. -/
theorem c1_aggLoop {F : Type} (fm : FloatModel F) (e : Nat) (tname : String) (T : Table)
    (cnd : Option Expr) :
    ∀ (fuel i : Nat) (st : AggregateResult F), i < T.rows → T.rows - i ≤ fuel →
    (∀ w, cnd = some w → ∀ r, i ≤ r → r < T.rows →
      ∃ v, eval_expr fm (e+1) .whereCond [] w [countStar] [T] [] [⟨some r, false⟩] {} = .ok v) →
    aggLoop fm (e+1) (selectCount tname cnd) [countStar] [T] [] [false] false [T.rows] fuel
        [⟨some i, false⟩] st =
      .ok (bumpCount st
          (((List.range' i (T.rows - i)).filter (c1PassB fm (e+1) T cnd)).length),
        [⟨none, false⟩]) := by
  intro fuel
  induction fuel with
  | zero => intro i st hi hfuel _; omega
  | succ fuel ih =>
    intro i st hi hfuel hw
    have hcheck := c1_check fm (e+1) tname T cnd i (fun w hwc => hw w hwc i le_rfl hi)
    have hagg : aggregate_expr fm (e+1) (.col 0) [] countStar [countStar] [T] []
        [⟨some i, false⟩] st =
        .ok (toString ((alistGet st.count (.col 0, [])).getD 0 + 1), bumpOne st) := rfl
    obtain ⟨k, hk⟩ : ∃ k, T.rows - i = k + 1 := ⟨T.rows - i - 1, by omega⟩
    have hrange : List.range' i (T.rows - i) = i :: List.range' (i+1) (T.rows - (i+1)) := by
      rw [hk, show T.rows - (i+1) = k by omega, List.range'_succ]
    have hfold : aggFoldCols fm (e+1) (selectCount tname cnd) [countStar] [T] [] [false] false
        [⟨some i, false⟩] ([countStar].enum) st =
        .ok (if c1PassB fm (e+1) T cnd i then bumpOne st else st) := by
      rcases hpass : c1PassB fm (e+1) T cnd i with _ | _ <;>
        simp [aggFoldCols, hcheck, hpass, hagg]
    simp only [aggLoop, hfold]
    rcases Nat.lt_or_ge (i+1) T.rows with hlt | hge
    · have hincr : incr_row_cursor [(⟨some i, false⟩ : RowCursor)] [T.rows] =
          (true, [⟨some (i+1), false⟩]) := by
        simp [incr_row_cursor, incrGo, hlt]
      rw [hincr]
      simp only [List.any_cons, List.any_nil, Option.isNone_some, Bool.or_false]
      rw [if_neg (by simp)]
      rw [ih (i+1) _ hlt (by omega) (fun w hwc r hr hr2 => hw w hwc r (by omega) hr2)]
      rw [hrange, List.filter_cons]
      rcases hpass : c1PassB fm (e+1) T cnd i with _ | _
      · simp [hpass]
      · simp only [hpass, if_true, List.length_cons]
        rw [bumpCount_bumpOne]
    · have hieq : i + 1 = T.rows := by omega
      have hincr : incr_row_cursor [(⟨some i, false⟩ : RowCursor)] [T.rows] =
          (true, [⟨none, false⟩]) := by
        simp [incr_row_cursor, incrGo, show ¬ (i + 1 < T.rows) by omega]
      rw [hincr]
      simp only [List.any_cons, List.any_nil, Option.isNone_none, Bool.true_or, if_true]
      have : T.rows - i = 1 := by omega
      rw [hrange, show T.rows - (i+1) = 0 by omega]
      simp only [List.range'_zero, List.filter_cons, List.filter_nil]
      rcases hpass : c1PassB fm (e+1) T cnd i with _ | _
      · simp [hpass, bumpCount]
      · simp [hpass, bumpCount, bumpCount_bumpOne]

/-- Helper: `exec_select` on a join-free, alias-free, unordered statement
reduces to the header plus the result of `exec_select_sub` over the single
resolved table. -/
theorem exec_select_single {F : Type} (fm : FloatModel F) (ef lf : Nat) (db : Database)
    (sql : SelectStmt) (T : Table)
    (hdb : dbGet db sql.table.name = some T)
    (hj : sql.join = [])
    (ha : sql.table.aliasName = none)
    (ho : sql.ordering = none) :
    exec_select fm ef lf db sql =
      (match exec_select_sub fm ef lf sql [T] [] (extend_colspecs [T] sql.cols).1 with
       | .error e => .error e
       | .ok rows => .ok ((extend_colspecs [T] sql.cols).2 :: rows)) := by
  obtain ⟨cols, ⟨nm, al⟩, join, condition, ordering, limit, offset⟩ := sql
  simp only at hj ha ho hdb
  subst hj ha ho
  simp only [exec_select, hdb, List.mapM_nil, pure, Except.pure, List.enum, List.enumFrom,
    List.foldl_cons, List.foldl_nil, List.map_cons, List.map_nil]

/-- Helper: the aggregated branch of `exec_select_sub` over a single table. -/
theorem exec_select_sub_agg_single {F : Type} (fm : FloatModel F) (ef lf : Nat)
    (sql : SelectStmt) (T : Table) (cols : List Expr)
    (hs : T.schema.isEmpty = false)
    (hagg : cols.any find_aggregate_fn = true)
    (hj : sql.join = []) :
    exec_select_sub fm ef lf sql [T] [] cols =
      (match aggLoop fm ef sql cols [T] [] [false] false [T.rows] lf
          [⟨some 0, false⟩] {} with
       | .error e => .error e
       | .ok (results, fc) =>
         match eval_cells fm ef cols [T] [] fc results with
         | .error e => .error e
         | .ok values => .ok [values]) := by
  simp only [exec_select_sub]
  rw [if_neg (by simp [hs])]
  rw [hj]
  simp only [List.map_nil, List.any_cons, List.any_nil, Bool.or_false, id_eq, hagg, if_true]
  rw [show List.replicate (List.length [T]) RowCursor.init =
    [(⟨some 0, false⟩ : RowCursor)] from rfl]
  rw [show List.map (fun t => t.data.length / t.schema.length) [T] = [T.rows] from rfl]

/-- Helper: the non-aggregated branch of `exec_select_sub` over a single
table. -/
theorem exec_select_sub_nonagg_single {F : Type} (fm : FloatModel F) (ef lf : Nat)
    (sql : SelectStmt) (T : Table) (cols : List Expr)
    (hs : T.schema.isEmpty = false)
    (hagg : cols.any find_aggregate_fn = false)
    (hj : sql.join = []) :
    exec_select_sub fm ef lf sql [T] [] cols =
      nonAggLoop fm ef sql cols [T] [] [false] false [T.rows] lf [⟨some 0, false⟩] 0 := by
  simp only [exec_select_sub]
  rw [if_neg (by simp [hs])]
  rw [hj]
  simp only [List.map_nil, List.any_cons, List.any_nil, Bool.or_false, id_eq, hagg,
    Bool.false_eq_true, if_false]
  rw [show List.replicate (List.length [T]) RowCursor.init =
    [(⟨some 0, false⟩ : RowCursor)] from rfl]
  rw [show List.map (fun t => t.data.length / t.schema.length) [T] = [T.rows] from rfl]

/-- Helper: `c1Matches` as a filter over the full row range. -/
theorem c1Matches_eq_filter {F : Type} (fm : FloatModel F) (ef : Nat) (T : Table)
    (cnd : Option Expr) :
    c1Matches fm ef T cnd =
      ((List.range T.rows).filter (c1PassB fm ef T cnd)).length := by
  cases cnd with
  | none =>
    rw [show c1PassB fm ef T none = fun _ => true from rfl]
    simp [c1Matches]
  | some w => rfl

/-- C1 amended: for a table with at least one row, `SELECT count(*) FROM T`
emits one data row whose cell is the decimal rendering of the number of
counted rows — all of them without WHERE, and (provided the predicate
evaluates without error on every row and at least one row passes) the
satisfying rows with WHERE.  On an empty table the code instead counts the
initial cursor once (`c1_counterexample`), and with zero satisfying rows the
final accumulator lookup fails. -/
theorem c1_amended {F : Type} (fm : FloatModel F) (ef lf : Nat) (db : Database)
    (tname : String) (T : Table) (cnd : Option Expr)
    (hdb : dbGet db tname = some T)
    (hn : 1 ≤ T.rows)
    (hef : 1 ≤ ef)
    (hlf : T.rows + 1 ≤ lf)
    (hw : ∀ w, cnd = some w → ∀ r, r < T.rows →
      ∃ v, eval_expr fm ef .whereCond [] w [countStar] [T] [] [⟨some r, false⟩] {} = .ok v)
    (hm : 1 ≤ c1Matches fm ef T cnd) :
    exec_select fm ef lf db (selectCount tname cnd) =
      .ok [["count(*)"], [toString (c1Matches fm ef T cnd)]] := by
  obtain ⟨e, rfl⟩ : ∃ e, ef = e + 1 := ⟨ef - 1, by omega⟩
  have hs : T.schema.isEmpty = false := by
    rcases hsc : T.schema with _ | ⟨a, l⟩
    · exfalso
      rw [Table.rows, hsc] at hn
      simp at hn
    · rfl
  have hM := (c1Matches_eq_filter fm (e+1) T cnd).symm
  have hloop := c1_aggLoop fm e tname T cnd lf 0 {} (by omega) (by omega)
    (fun w hwc r _ hr2 => hw w hwc r hr2)
  rw [show List.range' 0 (T.rows - 0) = List.range T.rows by
    simp [List.range_eq_range'], hM] at hloop
  have hcells : eval_cells fm (e+1) [countStar] [T] [] [⟨none, false⟩]
      (bumpCount ({} : AggregateResult F) (c1Matches fm (e+1) T cnd)) =
      .ok [toString (c1Matches fm (e+1) T cnd)] := by
    have hget := alistGet_bumpCount_empty (F := F) (c1Matches fm (e+1) T cnd)
    rw [if_neg (by omega)] at hget
    have hev : eval_expr fm (e+1) (NodeRoot.col 0) [] countStar [countStar] [T] []
        [⟨none, false⟩] (bumpCount ({} : AggregateResult F) (c1Matches fm (e+1) T cnd)) =
        .ok (toString (c1Matches fm (e+1) T cnd)) := by
      show (match alistGet (bumpCount ({} : AggregateResult F)
          (c1Matches fm (e+1) T cnd)).count (.col 0, []) with
        | some v => Except.ok (toString v)
        | none => Except.error (EvalError.aggregateCall "count")) =
        .ok (toString (c1Matches fm (e+1) T cnd))
      rw [hget]
    simp [eval_cells, List.enum, List.enumFrom, List.mapM, List.mapM.loop, hev]
  have hsub : exec_select_sub fm (e+1) lf (selectCount tname cnd) [T] [] [countStar] =
      .ok [[toString (c1Matches fm (e+1) T cnd)]] := by
    rw [exec_select_sub_agg_single fm (e+1) lf (selectCount tname cnd) T [countStar] hs rfl rfl]
    rw [hloop]
    simp only [hcells]
  rw [exec_select_single fm (e+1) lf db (selectCount tname cnd) T hdb rfl rfl rfl,
    show extend_colspecs [T] (selectCount tname cnd).cols = ([countStar], ["count(*)"])
      from rfl]
  rw [hsub]

/-- Helper: the wildcard foldl of `extend_colspecs` appends one column
reference and one header entry per schema column. -/
theorem schema_foldl_extend (T : Table) :
    ∀ (l : List RowSchema) (acc : List Expr × List String),
      l.foldl (fun acc col =>
        (acc.1 ++ [Expr.column ⟨some T.name, col.name⟩], acc.2 ++ [col.name])) acc =
      (acc.1 ++ l.map (fun c => Expr.column ⟨some T.name, c.name⟩),
        acc.2 ++ l.map (·.name)) := by
  intro l
  induction l with
  | nil => intro acc; simp
  | cons a tl ih =>
    intro acc
    rw [List.foldl_cons, ih]
    simp

/-- Helper: `SELECT *` over a single table expands to its qualified columns
and its schema names as the header. -/
theorem extend_colspecs_wildcard_single (T : Table) :
    extend_colspecs [T] [.wildcard] = (wildcardCols T, T.schema.map (·.name)) := by
  show T.schema.foldl _ (([], []) : List Expr × List String) = _
  rw [schema_foldl_extend]
  simp [wildcardCols]

/-- Helper: under distinct schema names, the positional search for the name
of the `j`-th column finds exactly position `j`. -/
theorem nodup_enumFrom_find? :
    ∀ (l : List RowSchema) (j k : Nat) (s : RowSchema),
      (l.map (·.name)).Nodup → l.get? j = some s →
      (l.enumFrom k).find? (fun p => p.2.name == s.name) = some (k + j, s) := by
  intro l
  induction l with
  | nil => intro j k s _ h; simp at h
  | cons a tl ih =>
    intro j k s hnd hget
    cases j with
    | zero =>
      obtain rfl : a = s := by simpa using hget
      simp [List.enumFrom_cons, List.find?_cons]
    | succ j =>
      have hget' : tl.get? j = some s := by simpa using hget
      have hmem : s ∈ tl := List.get?_mem hget'
      have hnd' : (tl.map (·.name)).Nodup ∧ a.name ∉ tl.map (·.name) := by
        rw [List.map_cons, List.nodup_cons] at hnd
        exact ⟨hnd.2, hnd.1⟩
      have hne : (a.name == s.name) = false := by
        refine beq_eq_false_iff_ne.mpr ?_
        intro hEq
        exact hnd'.2 (hEq ▸ List.mem_map_of_mem _ hmem)
      rw [List.enumFrom_cons, List.find?_cons,
        show ((k, a).2.name == s.name) = false from hne,
        ih j (k+1) s hnd'.1 hget',
        show k + 1 + j = k + (j + 1) by omega]

/-- Helper: a column qualified with the table name resolves through the
positional schema search of that table. -/
theorem find_col_qualified_single (T : Table) (nm : String) :
    find_col [T] [] ⟨some T.name, nm⟩ =
      .ok ((T.schema.enum.find? (fun p => p.2.name == nm)).map
        fun p => ColRef.mk T 0 p.1) := by
  have hself : (T.name == T.name) = true := beq_self_eq_true T.name
  simp [find_col, aliasLookup, List.find?, hself]

/-- Helper: a stored cell index is within the flat data array. -/
theorem cell_index_lt (T : Table) (i j : Nat) (hi : i < T.rows)
    (hj : j < T.schema.length) :
    j + i * T.schema.length < T.data.length := by
  have h0 : j + i * T.schema.length < (i + 1) * T.schema.length := by
    rw [Nat.succ_mul]
    omega
  have h1 : (i + 1) * T.schema.length ≤ T.rows * T.schema.length :=
    Nat.mul_le_mul_right _ (by omega)
  have h2 : T.rows * T.schema.length ≤ T.data.length := by
    rw [Table.rows]
    exact Nat.div_mul_le_self _ _
  omega

/-- Helper: evaluating the qualified reference to the `j`-th column of `T`
at row `i` yields the stored cell `data[j + i*s]`. -/
theorem c2_eval_cell {F : Type} (fm : FloatModel F) (e : Nat) (T : Table) (i : Nat) (b : Bool)
    (hnd : (T.schema.map (·.name)).Nodup) (hi : i < T.rows)
    (j : Nat) (s : RowSchema) (hj : T.schema.get? j = some s)
    (cols : List Expr) (root : NodeRoot) (path : List Nat) :
    eval_expr fm (e+1) root path (.column ⟨some T.name, s.name⟩) cols [T] []
      [⟨some i, b⟩] {} = .ok (T.data.getD (j + i * T.schema.length) "") := by
  have hjlt : j < T.schema.length := by
    by_contra hge
    rw [List.get?_eq_none.mpr (by omega)] at hj
    exact Option.noConfusion hj
  have hfind := nodup_enumFrom_find? T.schema j 0 s hnd hj
  have hfc := find_col_qualified_single T s.name
  rw [show T.schema.enum = T.schema.enumFrom 0 from rfl, hfind] at hfc
  have hidx : j + i * T.schema.length < T.data.length := cell_index_lt T i j hi hjlt
  obtain ⟨v, hv⟩ : ∃ v, T.data.get? (j + i * T.schema.length) = some v :=
    Option.isSome_iff_exists.mp (by rw [List.get?_eq_get hidx]; rfl)
  show (match find_col [T] [] ⟨some T.name, s.name⟩ with
    | .error nm => Except.error (EvalError.panicColumnName nm)
    | .ok none => Except.error (EvalError.colNotFound s.name)
    | .ok (some cr) => cr.get [⟨some i, b⟩]) = _
  rw [hfc]
  show (ColRef.mk T 0 (0 + j)).get [⟨some i, b⟩] = _
  show (match T.get i (0 + j) with
    | none => Except.error (EvalError.rowNotFound i)
    | some v => Except.ok v) = _
  rw [show T.get i (0 + j) = T.data.get? (j + i * T.schema.length) by
    rw [Table.get, Nat.zero_add], hv]
  rw [List.getD_eq_getD_get?, hv]
  rfl

/-- Helper: the cell evaluation of a wildcard projection suffix yields the
stored cells of the corresponding schema positions. -/
theorem c2_eval_cells_aux {F : Type} (fm : FloatModel F) (e : Nat) (T : Table) (i : Nat)
    (b : Bool) (hnd : (T.schema.map (·.name)).Nodup) (hi : i < T.rows) :
    ∀ (rest pre : List RowSchema) (pl : List (Nat × Expr)),
      T.schema = pre ++ rest →
      pl.map Prod.snd = rest.map (fun c => Expr.column ⟨some T.name, c.name⟩) →
      pl.mapM (fun p =>
        match eval_expr fm (e+1) (.col p.1) [] p.2 (wildcardCols T) [T] [] [⟨some i, b⟩]
            ({} : AggregateResult F) with
        | .ok v => Except.ok v
        | .error (.cursorNone _) => Except.ok ""
        | .error er => Except.error (ExecError.eval er)) =
      .ok ((List.range' pre.length rest.length).map
        (fun j => T.data.getD (j + i * T.schema.length) "")) := by
  intro rest
  induction rest with
  | nil =>
    intro pre pl _ hshape
    obtain rfl : pl = [] := by
      cases pl with
      | nil => rfl
      | cons hd tlp => simp at hshape
    rfl
  | cons s tl ih =>
    intro pre pl hschema hshape
    obtain ⟨k0, ex, pl', rfl⟩ : ∃ k0 ex pl', pl = (k0, ex) :: pl' := by
      cases pl with
      | nil => simp at hshape
      | cons hd tlp => exact ⟨hd.1, hd.2, tlp, rfl⟩
    rw [List.map_cons, List.map_cons] at hshape
    obtain ⟨hex, hshape'⟩ := List.cons_eq_cons.mp hshape
    have hj : T.schema.get? pre.length = some s := by
      rw [hschema, List.get?_append_right le_rfl, Nat.sub_self]
      rfl
    have hev := c2_eval_cell fm e T i b hnd hi pre.length s hj (wildcardCols T)
      (.col k0) []
    rw [List.mapM_cons, hex, hev,
      ih (pre ++ [s]) pl' (by rw [hschema, List.append_assoc]; rfl) hshape']
    simp [List.range'_succ, List.length_append]
    rfl

/-- Helper: full-row cell evaluation for the wildcard projection. -/
theorem c2_eval_cells {F : Type} (fm : FloatModel F) (e : Nat) (T : Table) (i : Nat)
    (b : Bool) (hnd : (T.schema.map (·.name)).Nodup) (hi : i < T.rows) :
    eval_cells fm (e+1) (wildcardCols T) [T] [] [⟨some i, b⟩] {} = .ok (tableRow T i) := by
  rw [eval_cells]
  have := c2_eval_cells_aux fm e T i b hnd hi T.schema [] ((wildcardCols T).enum)
    rfl (by rw [List.enum_map_snd, wildcardCols])
  rw [this]
  rw [tableRow, List.range_eq_range']
  rfl

/-- Helper: one step of the non-aggregated loop at an admitted combination
(no LIMIT/OFFSET): mark shown, emit the evaluated cells, advance. -/
theorem nonAggLoop_step_pass {F : Type} (fm : FloatModel F) (ef : Nat) (sql : SelectStmt)
    (cols : List Expr) (tables : List Table) (aliases : List (String × Nat))
    (jan : List Bool) (hl : Bool) (counts : List Nat) (fuel : Nat)
    (cursor : List RowCursor) (p : Nat) (vals : List String)
    (hlim : sql.limit = none)
    (hoff : sql.offset = none)
    (hchk : check_print fm ef sql cols tables aliases jan hl cursor = .ok true)
    (hvals : eval_cells fm ef cols tables aliases
      (cursor.map fun rc => ⟨rc.row, true⟩) {} = .ok vals) :
    nonAggLoop fm ef sql cols tables aliases jan hl counts (fuel+1) cursor p =
      (match incr_row_cursor (cursor.map fun rc => ⟨rc.row, true⟩) counts with
       | (false, _) => .ok [vals]
       | (true, c2) =>
         match nonAggLoop fm ef sql cols tables aliases jan hl counts fuel c2 (p+1) with
         | .error e => .error e
         | .ok more => .ok (vals :: more)) := by
  simp only [nonAggLoop, hlim, hoff, hchk, hvals, Option.getD_none, Nat.zero_le,
    if_true, List.singleton_append, Bool.false_eq_true, if_false]

/-- Helper: one step of the non-aggregated loop at a rejected combination
(no LIMIT): just advance. -/
theorem nonAggLoop_step_fail {F : Type} (fm : FloatModel F) (ef : Nat) (sql : SelectStmt)
    (cols : List Expr) (tables : List Table) (aliases : List (String × Nat))
    (jan : List Bool) (hl : Bool) (counts : List Nat) (fuel : Nat)
    (cursor : List RowCursor) (p : Nat)
    (hlim : sql.limit = none)
    (hchk : check_print fm ef sql cols tables aliases jan hl cursor = .ok false) :
    nonAggLoop fm ef sql cols tables aliases jan hl counts (fuel+1) cursor p =
      (match incr_row_cursor cursor counts with
       | (false, _) => .ok []
       | (true, c2) => nonAggLoop fm ef sql cols tables aliases jan hl counts fuel c2 p) := by
  simp only [nonAggLoop, hlim, hchk, Bool.false_eq_true, if_false]

/-- Helper: the non-aggregated loop of `SELECT *` over a single table,
entered at row `i`, emits exactly the stored rows `i .. rows-1`. -/
theorem c2_loop {F : Type} (fm : FloatModel F) (e : Nat) (tname : String) (T : Table)
    (hnd : (T.schema.map (·.name)).Nodup) :
    ∀ (fuel i p : Nat) (b : Bool), i < T.rows → T.rows - i + 1 ≤ fuel →
    nonAggLoop fm (e+1) (selectStar tname) (wildcardCols T) [T] [] [false] false [T.rows]
        fuel [⟨some i, b⟩] p =
      .ok ((List.range' i (T.rows - i)).map (tableRow T)) := by
  intro fuel
  induction fuel with
  | zero => intro i p b hi hfuel; omega
  | succ fuel ih =>
    intro i p b hi hfuel
    have hcheck : check_print fm (e+1) (selectStar tname) (wildcardCols T) [T] [] [false]
        false [⟨some i, b⟩] = .ok true := rfl
    have hcells := c2_eval_cells fm e T i true hnd hi
    obtain ⟨k, hk⟩ : ∃ k, T.rows - i = k + 1 := ⟨T.rows - i - 1, by omega⟩
    have hrange : List.range' i (T.rows - i) = i :: List.range' (i+1) (T.rows - (i+1)) := by
      rw [hk, show T.rows - (i+1) = k by omega, List.range'_succ]
    have hcells' : eval_cells fm (e+1) (wildcardCols T) [T] []
        (List.map (fun rc => (⟨rc.row, true⟩ : RowCursor)) [(⟨some i, b⟩ : RowCursor)]) {} =
        .ok (tableRow T i) := hcells
    rw [nonAggLoop_step_pass fm (e+1) (selectStar tname) (wildcardCols T) [T] [] [false]
      false [T.rows] fuel [⟨some i, b⟩] p (tableRow T i) rfl rfl hcheck hcells']
    rcases Nat.lt_or_ge (i+1) T.rows with hlt | hge
    · have hincr : incr_row_cursor
          (List.map (fun rc => (⟨rc.row, true⟩ : RowCursor)) [(⟨some i, b⟩ : RowCursor)])
          [T.rows] = (true, [⟨some (i+1), true⟩]) := by
        simp [incr_row_cursor, incrGo, hlt]
      rw [hincr]
      show (match nonAggLoop fm (e+1) (selectStar tname) (wildcardCols T) [T] [] [false]
          false [T.rows] fuel [⟨some (i+1), true⟩] (p+1) with
        | Except.error er => Except.error er
        | Except.ok more => Except.ok (tableRow T i :: more)) = _
      rw [ih (i+1) (p+1) true hlt (by omega)]
      rw [hrange, List.map_cons]
    · have hieq : i + 1 = T.rows := by omega
      have hincr : incr_row_cursor
          (List.map (fun rc => (⟨rc.row, true⟩ : RowCursor)) [(⟨some i, b⟩ : RowCursor)])
          [T.rows] = (true, [⟨none, true⟩]) := by
        simp [incr_row_cursor, incrGo, show ¬ (i + 1 < T.rows) by omega]
      rw [hincr]
      obtain ⟨f, rfl⟩ : ∃ f, fuel = f + 1 := ⟨fuel - 1, by omega⟩
      show (match nonAggLoop fm (e+1) (selectStar tname) (wildcardCols T) [T] [] [false]
          false [T.rows] (f+1) [⟨none, true⟩] (p+1) with
        | Except.error er => Except.error er
        | Except.ok more => Except.ok (tableRow T i :: more)) = _
      have hcheck2 : check_print fm (e+1) (selectStar tname) (wildcardCols T) [T] []
          [false] false [⟨none, true⟩] = .ok false := rfl
      rw [nonAggLoop_step_fail fm (e+1) (selectStar tname) (wildcardCols T) [T] [] [false]
        false [T.rows] f [⟨none, true⟩] (p+1) rfl hcheck2]
      rw [show incr_row_cursor [(⟨none, true⟩ : RowCursor)] [T.rows] =
        (false, [⟨none, true⟩]) from rfl]
      rw [hrange, show T.rows - (i+1) = 0 by omega]
      simp

/-- C2 amended: provided the schema names are pairwise distinct and the table
has at least one row, `SELECT * FROM T` succeeds and emits the header
followed by exactly the stored rows in order.  With duplicated schema names
resolution collapses to the first matching index (`c2_counterexample`), and
on an empty table the visit of the initial cursor makes the query error. -/
theorem c2_amended {F : Type} (fm : FloatModel F) (ef lf : Nat) (db : Database)
    (tname : String) (T : Table)
    (hdb : dbGet db tname = some T)
    (hnd : (T.schema.map (·.name)).Nodup)
    (hn : 1 ≤ T.rows)
    (hef : 1 ≤ ef)
    (hlf : T.rows + 2 ≤ lf) :
    exec_select fm ef lf db (selectStar tname) =
      .ok ((T.schema.map (·.name)) :: (List.range T.rows).map (tableRow T)) := by
  obtain ⟨e, rfl⟩ : ∃ e, ef = e + 1 := ⟨ef - 1, by omega⟩
  have hs : T.schema.isEmpty = false := by
    rcases hsc : T.schema with _ | ⟨a, l⟩
    · exfalso
      rw [Table.rows, hsc] at hn
      simp at hn
    · rfl
  have hnoagg : (wildcardCols T).any find_aggregate_fn = false := by
    refine List.any_eq_false.mpr ?_
    intro x hx
    rw [wildcardCols] at hx
    obtain ⟨c, _, rfl⟩ := List.mem_map.mp hx
    simp [find_aggregate_fn]
  rw [exec_select_single fm (e+1) lf db (selectStar tname) T hdb rfl rfl rfl]
  rw [show extend_colspecs [T] (selectStar tname).cols = (wildcardCols T, T.schema.map (·.name))
    from extend_colspecs_wildcard_single T]
  rw [exec_select_sub_nonagg_single fm (e+1) lf (selectStar tname) T (wildcardCols T)
    hs hnoagg rfl]
  rw [c2_loop fm e tname T hnd lf 0 0 false (by omega) (by omega)]
  rw [show List.range' 0 (T.rows - 0) = List.range T.rows by
    simp [List.range_eq_range']]

/-- Helper: wildcard expansion over any table list appends only plain column
references, which contain no aggregate call. -/
theorem tables_foldl_noagg :
    ∀ (ts : List Table) (acc : List Expr × List String),
      acc.1.any find_aggregate_fn = false →
      ((ts.foldl (fun acc t => t.schema.foldl (fun acc col =>
        (acc.1 ++ [Expr.column ⟨some t.name, col.name⟩], acc.2 ++ [col.name])) acc)
        acc).1.any find_aggregate_fn) = false := by
  intro ts
  induction ts with
  | nil => intro acc h; exact h
  | cons t ts ih =>
    intro acc h
    rw [List.foldl_cons, schema_foldl_extend]
    refine ih _ ?_
    rw [List.any_append, h, Bool.false_or]
    refine List.any_eq_false.mpr ?_
    intro x hx
    obtain ⟨c, _, rfl⟩ := List.mem_map.mp hx
    simp [find_aggregate_fn]

/-- Helper: expanding aggregate-free projection items yields aggregate-free
expressions. -/
theorem extend_colspecs_noagg (tables : List Table) (specs : List ColSpecifier)
    (h : colsNoAgg specs = true) :
    (extend_colspecs tables specs).1.any find_aggregate_fn = false := by
  suffices hgen : ∀ (l : List ColSpecifier) (acc : List Expr × List String),
      acc.1.any find_aggregate_fn = false → colsNoAgg l = true →
      ((l.foldl (fun acc spec =>
        match spec with
        | .wildcard =>
          tables.foldl (fun acc t =>
            t.schema.foldl (fun acc col =>
              (acc.1 ++ [Expr.column ⟨some t.name, col.name⟩], acc.2 ++ [col.name])) acc) acc
        | .expr e => (acc.1 ++ [e], acc.2 ++ [exprToString e])) acc).1.any
        find_aggregate_fn) = false by
    exact hgen specs ([], []) rfl h
  intro l
  induction l with
  | nil => intro acc hacc _; exact hacc
  | cons spec rest ih =>
    intro acc hacc hl
    rw [colsNoAgg, List.all_cons, Bool.and_eq_true] at hl
    rw [List.foldl_cons]
    cases spec with
    | wildcard => exact ih _ (tables_foldl_noagg tables acc hacc) hl.2
    | expr e =>
      refine ih _ ?_ hl.2
      rw [List.any_append, hacc, Bool.false_or]
      simp only [List.any_cons, List.any_nil, Bool.or_false]
      have : find_aggregate_fn e = false := by
        have := hl.1
        simp only [Bool.not_eq_true'] at this
        exact this
      rw [this]

/-- Helper: one step of the non-aggregated loop when the LIMIT break
triggers. -/
theorem nonAggLoop_step_break {F : Type} (fm : FloatModel F) (ef : Nat) (sql : SelectStmt)
    (colsE : List Expr) (tables : List Table) (aliases : List (String × Nat))
    (jan : List Bool) (hl : Bool) (counts : List Nat) (fuel : Nat)
    (cursor : List RowCursor) (p : Nat)
    (hb : (match sql.limit with
      | some l => decide (sql.offset.getD 0 + l ≤ p)
      | none => false) = true) :
    nonAggLoop fm ef sql colsE tables aliases jan hl counts (fuel+1) cursor p = .ok [] := by
  simp only [nonAggLoop, hb, if_true]

/-- Helper: one step of the non-aggregated loop when the check errs. -/
theorem nonAggLoop_step_error {F : Type} (fm : FloatModel F) (ef : Nat) (sql : SelectStmt)
    (colsE : List Expr) (tables : List Table) (aliases : List (String × Nat))
    (jan : List Bool) (hl : Bool) (counts : List Nat) (fuel : Nat)
    (cursor : List RowCursor) (p : Nat) (er : ExecError)
    (hnb : (match sql.limit with
      | some l => decide (sql.offset.getD 0 + l ≤ p)
      | none => false) = false)
    (hchk : check_print fm ef sql colsE tables aliases jan hl cursor = .error er) :
    nonAggLoop fm ef sql colsE tables aliases jan hl counts (fuel+1) cursor p = .error er := by
  simp only [nonAggLoop, hnb, Bool.false_eq_true, if_false, hchk]

/-- Helper: one step of the non-aggregated loop when the cell evaluation
errs at an admitted combination. -/
theorem nonAggLoop_step_evalerror {F : Type} (fm : FloatModel F) (ef : Nat)
    (sql : SelectStmt) (colsE : List Expr) (tables : List Table)
    (aliases : List (String × Nat)) (jan : List Bool) (hl : Bool) (counts : List Nat)
    (fuel : Nat) (cursor : List RowCursor) (p : Nat) (er : ExecError)
    (hnb : (match sql.limit with
      | some l => decide (sql.offset.getD 0 + l ≤ p)
      | none => false) = false)
    (hchk : check_print fm ef sql colsE tables aliases jan hl cursor = .ok true)
    (hvals : eval_cells fm ef colsE tables aliases
      (cursor.map fun rc => ⟨rc.row, true⟩) {} = .error er) :
    nonAggLoop fm ef sql colsE tables aliases jan hl counts (fuel+1) cursor p = .error er := by
  simp only [nonAggLoop, hnb, Bool.false_eq_true, if_false, hchk, hvals]

/-- Helper: one step of the non-aggregated loop at an admitted combination
(general LIMIT/OFFSET form). -/
theorem nonAggLoop_step_pass_general {F : Type} (fm : FloatModel F) (ef : Nat)
    (sql : SelectStmt) (colsE : List Expr) (tables : List Table)
    (aliases : List (String × Nat)) (jan : List Bool) (hl : Bool) (counts : List Nat)
    (fuel : Nat) (cursor : List RowCursor) (p : Nat) (vals : List String)
    (hnb : (match sql.limit with
      | some l => decide (sql.offset.getD 0 + l ≤ p)
      | none => false) = false)
    (hchk : check_print fm ef sql colsE tables aliases jan hl cursor = .ok true)
    (hvals : eval_cells fm ef colsE tables aliases
      (cursor.map fun rc => ⟨rc.row, true⟩) {} = .ok vals) :
    nonAggLoop fm ef sql colsE tables aliases jan hl counts (fuel+1) cursor p =
      (match incr_row_cursor (cursor.map fun rc => ⟨rc.row, true⟩) counts with
       | (false, _) => .ok (if sql.offset.getD 0 ≤ p then [vals] else [])
       | (true, c2) =>
         match nonAggLoop fm ef sql colsE tables aliases jan hl counts fuel c2 (p+1) with
         | .error e => .error e
         | .ok more => .ok ((if sql.offset.getD 0 ≤ p then [vals] else []) ++ more)) := by
  simp only [nonAggLoop, hnb, Bool.false_eq_true, if_false, hchk, hvals]

/-- Helper: one step of the non-aggregated loop at a rejected combination
(general LIMIT form). -/
theorem nonAggLoop_step_fail_general {F : Type} (fm : FloatModel F) (ef : Nat)
    (sql : SelectStmt) (colsE : List Expr) (tables : List Table)
    (aliases : List (String × Nat)) (jan : List Bool) (hl : Bool) (counts : List Nat)
    (fuel : Nat) (cursor : List RowCursor) (p : Nat)
    (hnb : (match sql.limit with
      | some l => decide (sql.offset.getD 0 + l ≤ p)
      | none => false) = false)
    (hchk : check_print fm ef sql colsE tables aliases jan hl cursor = .ok false) :
    nonAggLoop fm ef sql colsE tables aliases jan hl counts (fuel+1) cursor p =
      (match incr_row_cursor cursor counts with
       | (false, _) => .ok []
       | (true, c2) => nonAggLoop fm ef sql colsE tables aliases jan hl counts fuel c2 p) := by
  simp only [nonAggLoop, hnb, Bool.false_eq_true, if_false, hchk]

/-- Helper: with ORDER BY absent, the run with `LIMIT k OFFSET o` emits
exactly the window `[offset, offset+k)` of the un-limited run (positions
counted among admitted rows). -/
theorem c8_loop {F : Type} (fm : FloatModel F) (ef : Nat) (colsE : List Expr)
    (tables : List Table) (aliases : List (String × Nat)) (jan : List Bool) (hl : Bool)
    (counts : List Nat) (cols : List ColSpecifier) (table : TableSpecifier)
    (join : List JoinClause) (condition : Option Expr) (k : Nat) (o : Option Nat) :
    ∀ (fuel : Nat) (cursor : List RowCursor) (p : Nat) (rows : List (List String)),
      nonAggLoop fm ef ⟨cols, table, join, condition, none, none, none⟩ colsE tables aliases
        jan hl counts fuel cursor p = .ok rows →
      nonAggLoop fm ef ⟨cols, table, join, condition, none, some k, o⟩ colsE tables aliases
        jan hl counts fuel cursor p =
        .ok ((rows.drop (o.getD 0 - p)).take ((o.getD 0 + k) - max (o.getD 0) p)) := by
  intro fuel
  induction fuel with
  | zero =>
    intro cursor p rows hU
    exact absurd hU (by simp [nonAggLoop])
  | succ f ih =>
    intro cursor p rows hU
    by_cases hbr : o.getD 0 + k ≤ p
    · have hjp : o.getD 0 ≤ p := by omega
      rw [nonAggLoop_step_break fm ef ⟨cols, table, join, condition, none, some k, o⟩
        colsE tables aliases jan hl counts f cursor p
        (by simp only []; exact decide_eq_true hbr)]
      rw [Nat.max_eq_right hjp, show o.getD 0 + k - p = 0 by omega, List.take_zero]
    · have hnbL : (match (⟨cols, table, join, condition, none, some k, o⟩ :
          SelectStmt).limit with
          | some l => decide ((⟨cols, table, join, condition, none, some k, o⟩ :
              SelectStmt).offset.getD 0 + l ≤ p)
          | none => false) = false := by
        simp only []
        exact decide_eq_false hbr
      cases hchk : check_print fm ef (⟨cols, table, join, condition, none, none, none⟩ :
          SelectStmt) colsE tables aliases jan hl cursor with
      | error er =>
        rw [nonAggLoop_step_error fm ef _ colsE tables aliases jan hl counts f cursor p er
          rfl hchk] at hU
        exact absurd hU (by simp)
      | ok b =>
        have hchkL : check_print fm ef (⟨cols, table, join, condition, none, some k, o⟩ :
            SelectStmt) colsE tables aliases jan hl cursor = .ok b := hchk
        cases b with
        | false =>
          rw [nonAggLoop_step_fail_general fm ef _ colsE tables aliases jan hl counts f
            cursor p rfl hchk] at hU
          rw [nonAggLoop_step_fail_general fm ef _ colsE tables aliases jan hl counts f
            cursor p hnbL hchkL]
          rcases hincr : incr_row_cursor cursor counts with ⟨b2, c2⟩
          rw [hincr] at hU
          cases b2 with
          | false =>
            have hU' : (Except.ok [] : Except ExecError (List (List String))) =
                Except.ok rows := hU
            obtain rfl : rows = [] := by
              cases hU'
              rfl
            show (Except.ok [] : Except ExecError (List (List String))) =
              Except.ok ((List.drop (o.getD 0 - p) ([] : List (List String))).take
                (o.getD 0 + k - max (o.getD 0) p))
            simp
          | true =>
            have hU' : nonAggLoop fm ef (⟨cols, table, join, condition, none, none, none⟩ :
                SelectStmt) colsE tables aliases jan hl counts f c2 p = Except.ok rows := hU
            exact ih c2 p rows hU'
        | true =>
          cases hev : eval_cells fm ef colsE tables aliases
              (cursor.map fun rc => ⟨rc.row, true⟩) {} with
          | error er =>
            rw [nonAggLoop_step_evalerror fm ef _ colsE tables aliases jan hl counts f
              cursor p er rfl hchk hev] at hU
            exact absurd hU (by simp)
          | ok vals =>
            rw [nonAggLoop_step_pass fm ef _ colsE tables aliases jan hl counts f
              cursor p vals rfl rfl hchk hev] at hU
            rw [nonAggLoop_step_pass_general fm ef _ colsE tables aliases jan hl counts f
              cursor p vals hnbL hchkL hev]
            rcases hincr : incr_row_cursor (cursor.map fun rc => ⟨rc.row, true⟩) counts with
              ⟨b2, c2⟩
            rw [hincr] at hU
            cases b2 with
            | false =>
              rw [hincr]
              have hU' : (Except.ok [vals] : Except ExecError (List (List String))) =
                  Except.ok rows := hU
              obtain rfl : rows = [vals] := by
                cases hU'
                rfl
              show (Except.ok (if o.getD 0 ≤ p then [vals] else []) :
                  Except ExecError (List (List String))) =
                Except.ok ((List.drop (o.getD 0 - p) [vals]).take
                  (o.getD 0 + k - max (o.getD 0) p))
              by_cases hjp : o.getD 0 ≤ p
              · rw [if_pos hjp, Nat.max_eq_right hjp,
                  show o.getD 0 - p = 0 by omega, List.drop_zero]
                obtain ⟨m, hm⟩ : ∃ m, o.getD 0 + k - p = m + 1 := ⟨o.getD 0 + k - p - 1, by omega⟩
                rw [hm, List.take_succ_cons, List.take_nil]
              · rw [if_neg hjp]
                obtain ⟨m, hm⟩ : ∃ m, o.getD 0 - p = m + 1 := ⟨o.getD 0 - p - 1, by omega⟩
                rw [hm, List.drop_succ_cons, List.drop_nil, List.take_nil]
            | true =>
              rw [hincr]
              have hU' : (match nonAggLoop fm ef (⟨cols, table, join, condition, none,
                  none, none⟩ : SelectStmt) colsE tables aliases jan hl counts f c2 (p+1) with
                | Except.error e => Except.error e
                | Except.ok more => Except.ok (vals :: more)) = Except.ok rows := hU
              cases hrec : nonAggLoop fm ef (⟨cols, table, join, condition, none, none,
                  none⟩ : SelectStmt) colsE tables aliases jan hl counts f c2 (p+1) with
              | error er =>
                rw [hrec] at hU'
                exact absurd hU' (by simp)
              | ok more =>
                rw [hrec] at hU'
                obtain rfl : rows = vals :: more := by
                  cases hU'
                  rfl
                show (match nonAggLoop fm ef (⟨cols, table, join, condition, none, some k,
                    o⟩ : SelectStmt) colsE tables aliases jan hl counts f c2 (p+1) with
                  | Except.error e => Except.error e
                  | Except.ok more2 =>
                    Except.ok ((if o.getD 0 ≤ p then [vals] else []) ++ more2)) =
                  Except.ok ((List.drop (o.getD 0 - p) (vals :: more)).take
                    (o.getD 0 + k - max (o.getD 0) p))
                rw [ih c2 (p+1) more hrec]
                show (Except.ok ((if o.getD 0 ≤ p then [vals] else []) ++
                    ((more.drop (o.getD 0 - (p+1))).take
                      (o.getD 0 + k - max (o.getD 0) (p+1)))) :
                    Except ExecError (List (List String))) =
                  Except.ok ((List.drop (o.getD 0 - p) (vals :: more)).take
                    (o.getD 0 + k - max (o.getD 0) p))
                by_cases hjp : o.getD 0 ≤ p
                · rw [if_pos hjp, Nat.max_eq_right hjp,
                    Nat.max_eq_right (by omega : o.getD 0 ≤ p + 1),
                    show o.getD 0 - p = 0 by omega,
                    show o.getD 0 - (p + 1) = 0 by omega, List.drop_zero, List.drop_zero]
                  obtain ⟨m, hm⟩ : ∃ m, o.getD 0 + k - p = m + 1 :=
                    ⟨o.getD 0 + k - p - 1, by omega⟩
                  rw [hm, List.take_succ_cons, show o.getD 0 + k - (p + 1) = m by omega]
                  rfl
                · rw [if_neg hjp, Nat.max_eq_left (by omega : p ≤ o.getD 0),
                    Nat.max_eq_left (by omega : p + 1 ≤ o.getD 0)]
                  obtain ⟨m, hm⟩ : ∃ m, o.getD 0 - p = m + 1 := ⟨o.getD 0 - p - 1, by omega⟩
                  rw [hm, List.drop_succ_cons, show o.getD 0 - (p + 1) = m by omega]
                  rw [show o.getD 0 + k - o.getD 0 = k by omega]
                  rfl

/-- Helper: unfolding of `exec_select` when all tables resolve and no
ORDER BY is present. -/
theorem exec_select_unfold_noord {F : Type} (fm : FloatModel F) (ef lf : Nat) (db : Database)
    (sql : SelectStmt) (T : Table) (joined : List (Table × Option String))
    (hdb : dbGet db sql.table.name = some T)
    (hjm : sql.join.mapM (fun j =>
      match dbGet db j.table.name with
      | some t => Except.ok (t, j.table.aliasName)
      | none => Except.error (ExecError.tableNotFound j.table.name)) = .ok joined)
    (hord : sql.ordering = none) :
    exec_select fm ef lf db sql =
      (match exec_select_sub fm ef lf sql (T :: joined.map (·.1))
          (((T, sql.table.aliasName) :: joined).enum.foldl (fun m p =>
            match p.2.2 with
            | some a => aliasInsert m a p.1
            | none => m)
            (match sql.table.aliasName with
             | some a => [(a, 0)]
             | none => []))
          (extend_colspecs (T :: joined.map (·.1)) sql.cols).1 with
       | .error e => .error e
       | .ok rows =>
         .ok ((extend_colspecs (T :: joined.map (·.1)) sql.cols).2 :: rows)) := by
  simp only [exec_select, hdb, hjm, hord, List.map_cons]

/-- Helper: unfolding of `exec_select` when all tables resolve and ORDER BY
is present. -/
theorem exec_select_unfold_ord {F : Type} (fm : FloatModel F) (ef lf : Nat) (db : Database)
    (sql : SelectStmt) (T : Table) (joined : List (Table × Option String)) (ob : OrderBy)
    (hdb : dbGet db sql.table.name = some T)
    (hjm : sql.join.mapM (fun j =>
      match dbGet db j.table.name with
      | some t => Except.ok (t, j.table.aliasName)
      | none => Except.error (ExecError.tableNotFound j.table.name)) = .ok joined)
    (hord : sql.ordering = some ob) :
    exec_select fm ef lf db sql =
      (match exec_select_sub fm ef lf
          { sql with ordering := none, limit := none, offset := none }
          (T :: joined.map (·.1))
          (((T, sql.table.aliasName) :: joined).enum.foldl (fun m p =>
            match p.2.2 with
            | some a => aliasInsert m a p.1
            | none => m)
            (match sql.table.aliasName with
             | some a => [(a, 0)]
             | none => []))
          ((extend_colspecs (T :: joined.map (·.1)) sql.cols).1 ++ [ob.expr]) with
       | .error e => .error e
       | .ok rows =>
         .ok ((extend_colspecs (T :: joined.map (·.1)) sql.cols).2 ::
           (match sql.limit with
            | some l =>
              (((sortRows (extend_colspecs (T :: joined.map (·.1)) sql.cols).1.length
                ob.ordering rows).drop (sql.offset.getD 0)).take l).map (fun r => r.dropLast)
            | none =>
              (sortRows (extend_colspecs (T :: joined.map (·.1)) sql.cols).1.length
                ob.ordering rows).map (fun r => r.dropLast)))) := by
  simp only [exec_select, hdb, hjm, hord, List.map_cons]

/-- Helper: `exec_select_unfold_noord` restated over the record fields, so
that the right-hand side is in fully reduced form. -/
theorem exec_select_unfold_noord2 {F : Type} (fm : FloatModel F) (ef lf : Nat)
    (db : Database) (cols : List ColSpecifier) (tbl : TableSpecifier)
    (join : List JoinClause) (condition : Option Expr) (limit offset : Option Nat)
    (T : Table) (joined : List (Table × Option String))
    (hdb : dbGet db tbl.name = some T)
    (hjm : join.mapM (fun j =>
      match dbGet db j.table.name with
      | some t => Except.ok (t, j.table.aliasName)
      | none => Except.error (ExecError.tableNotFound j.table.name)) = .ok joined) :
    exec_select fm ef lf db ⟨cols, tbl, join, condition, none, limit, offset⟩ =
      (match exec_select_sub fm ef lf ⟨cols, tbl, join, condition, none, limit, offset⟩
          (T :: joined.map (·.1))
          (((T, tbl.aliasName) :: joined).enum.foldl (fun m p =>
            match p.2.2 with
            | some a => aliasInsert m a p.1
            | none => m)
            (match tbl.aliasName with
             | some a => [(a, 0)]
             | none => []))
          (extend_colspecs (T :: joined.map (·.1)) cols).1 with
       | .error e => .error e
       | .ok rows =>
         .ok ((extend_colspecs (T :: joined.map (·.1)) cols).2 :: rows)) := by
  simp only [exec_select, hdb, hjm, List.map_cons]

/-- Helper: `exec_select_unfold_ord` restated over the record fields, so
that the right-hand side is in fully reduced form. -/
theorem exec_select_unfold_ord2 {F : Type} (fm : FloatModel F) (ef lf : Nat)
    (db : Database) (cols : List ColSpecifier) (tbl : TableSpecifier)
    (join : List JoinClause) (condition : Option Expr) (ob : OrderBy)
    (limit offset : Option Nat) (T : Table) (joined : List (Table × Option String))
    (hdb : dbGet db tbl.name = some T)
    (hjm : join.mapM (fun j =>
      match dbGet db j.table.name with
      | some t => Except.ok (t, j.table.aliasName)
      | none => Except.error (ExecError.tableNotFound j.table.name)) = .ok joined) :
    exec_select fm ef lf db ⟨cols, tbl, join, condition, some ob, limit, offset⟩ =
      (match exec_select_sub fm ef lf ⟨cols, tbl, join, condition, none, none, none⟩
          (T :: joined.map (·.1))
          (((T, tbl.aliasName) :: joined).enum.foldl (fun m p =>
            match p.2.2 with
            | some a => aliasInsert m a p.1
            | none => m)
            (match tbl.aliasName with
             | some a => [(a, 0)]
             | none => []))
          ((extend_colspecs (T :: joined.map (·.1)) cols).1 ++ [ob.expr]) with
       | .error e => .error e
       | .ok rows =>
         .ok ((extend_colspecs (T :: joined.map (·.1)) cols).2 ::
           (match limit with
            | some l =>
              (((sortRows (extend_colspecs (T :: joined.map (·.1)) cols).1.length
                ob.ordering rows).drop (offset.getD 0)).take l).map (fun r => r.dropLast)
            | none =>
              (sortRows (extend_colspecs (T :: joined.map (·.1)) cols).1.length
                ob.ordering rows).map (fun r => r.dropLast)))) := by
  simp only [exec_select, hdb, hjm, List.map_cons]

/-- Helper: with no aggregates and no ORDER BY, the LIMIT/OFFSET run of
`exec_select_sub` emits the window `[offset, offset+k)` of the un-limited
run. -/
theorem exec_select_sub_limit {F : Type} (fm : FloatModel F) (ef lf : Nat)
    (cols : List ColSpecifier) (table : TableSpecifier) (join : List JoinClause)
    (condition : Option Expr) (k : Nat) (o : Option Nat)
    (tables : List Table) (aliases : List (String × Nat)) (colsE : List Expr)
    (hagg : colsE.any find_aggregate_fn = false) (rows : List (List String))
    (hU : exec_select_sub fm ef lf ⟨cols, table, join, condition, none, none, none⟩
      tables aliases colsE = .ok rows) :
    exec_select_sub fm ef lf ⟨cols, table, join, condition, none, some k, o⟩
      tables aliases colsE = .ok ((rows.drop (o.getD 0)).take k) := by
  simp only [exec_select_sub] at hU ⊢
  by_cases hempty : tables.any (fun t => t.schema.isEmpty) = true
  · rw [if_pos hempty] at hU
    cases hU
  · rw [if_neg hempty] at hU ⊢
    simp only [hagg, Bool.false_eq_true, if_false] at hU ⊢
    have h2 : (rows.drop (o.getD 0 - 0)).take ((o.getD 0 + k) - max (o.getD 0) 0) =
        (rows.drop (o.getD 0)).take k := by
      rw [Nat.sub_zero, Nat.max_eq_left (Nat.zero_le _), Nat.add_sub_cancel_left]
    exact (c8_loop fm ef colsE tables aliases _ _ _ cols table join condition k o lf
      _ 0 rows hU).trans (by rw [h2])

/-- C8 amended: for queries whose projection carries no aggregate function
(or that carry ORDER BY, whose buffered path applies the window regardless),
a query with `LIMIT k` (and optional OFFSET, defaulting to 0) emits exactly
the data rows at positions `[offset, offset+k)` of the un-limited run, hence
at most `k` rows.  Aggregated queries without ORDER BY ignore LIMIT/OFFSET
entirely (`c8_counterexample`). -/
theorem c8_amended {F : Type} (fm : FloatModel F) (ef lf : Nat) (db : Database)
    (sql : SelectStmt) (k : Nat) (hdr : List String) (body : List (List String))
    (hna : colsNoAgg sql.cols = true ∨ sql.ordering.isSome = true)
    (hU : exec_select fm ef lf db { sql with limit := none, offset := none } =
      .ok (hdr :: body)) :
    exec_select fm ef lf db { sql with limit := some k } =
      .ok (hdr :: ((body.drop (sql.offset.getD 0)).take k)) ∧
    ((body.drop (sql.offset.getD 0)).take k).length ≤ k := by
  refine ⟨?_, List.length_take_le _ _⟩
  obtain ⟨cols, tbl, join, condition, ordering, limit, o⟩ := sql
  simp only at hna hU ⊢
  cases hdbm : dbGet db tbl.name with
  | none => exact absurd hU (by simp [exec_select, hdbm])
  | some T =>
    cases hjm : join.mapM (fun j =>
        match dbGet db j.table.name with
        | some t => Except.ok (t, j.table.aliasName)
        | none => Except.error (ExecError.tableNotFound j.table.name)) with
    | error e =>
      exact absurd hU (by simp only [exec_select, hdbm, hjm]; exact fun h => nomatch h)
    | ok joined =>
      cases ordering with
      | some ob =>
        rw [exec_select_unfold_ord2 fm ef lf db cols tbl join condition ob none none
          T joined hdbm hjm] at hU
        cases hsub : exec_select_sub fm ef lf ⟨cols, tbl, join, condition, none, none,
            none⟩ (T :: joined.map (·.1))
            (((T, tbl.aliasName) :: joined).enum.foldl (fun m p =>
              match p.2.2 with
              | some a => aliasInsert m a p.1
              | none => m)
              (match tbl.aliasName with
               | some a => [(a, 0)]
               | none => []))
            ((extend_colspecs (T :: joined.map (·.1)) cols).1 ++ [ob.expr]) with
        | error e =>
          rw [hsub] at hU
          have hU' : (Except.error e : Except ExecError (List (List String))) =
              .ok (hdr :: body) := hU
          cases hU'
        | ok rows =>
          rw [hsub] at hU
          have hU' : (Except.ok ((extend_colspecs (T :: joined.map (·.1)) cols).2 ::
              (sortRows (extend_colspecs (T :: joined.map (·.1)) cols).1.length
                ob.ordering rows).map (fun r => r.dropLast)) :
              Except ExecError (List (List String))) = .ok (hdr :: body) := hU
          have hcons := Except.ok.inj hU'
          rw [exec_select_unfold_ord2 fm ef lf db cols tbl join condition ob (some k) o
            T joined hdbm hjm, hsub]
          obtain ⟨hhdr, hbody⟩ := List.cons_eq_cons.mp hcons
          show (Except.ok ((extend_colspecs (T :: joined.map (·.1)) cols).2 ::
              (((sortRows (extend_colspecs (T :: joined.map (·.1)) cols).1.length
                ob.ordering rows).drop (o.getD 0)).take k).map (fun r => r.dropLast)) :
              Except ExecError (List (List String))) =
            .ok (hdr :: ((body.drop (o.getD 0)).take k))
          rw [hhdr, List.map_take, List.map_drop, hbody]
      | none =>
        rcases hna with hna | hna
        · rw [exec_select_unfold_noord2 fm ef lf db cols tbl join condition none none
            T joined hdbm hjm] at hU
          cases hsub : exec_select_sub fm ef lf ⟨cols, tbl, join, condition, none, none,
              none⟩ (T :: joined.map (·.1))
              (((T, tbl.aliasName) :: joined).enum.foldl (fun m p =>
                match p.2.2 with
                | some a => aliasInsert m a p.1
                | none => m)
                (match tbl.aliasName with
                 | some a => [(a, 0)]
                 | none => []))
              (extend_colspecs (T :: joined.map (·.1)) cols).1 with
          | error e =>
            rw [hsub] at hU
            have hU' : (Except.error e : Except ExecError (List (List String))) =
                .ok (hdr :: body) := hU
            cases hU'
          | ok rows =>
            rw [hsub] at hU
            have hU' : (Except.ok ((extend_colspecs (T :: joined.map (·.1)) cols).2 ::
                rows) : Except ExecError (List (List String))) = .ok (hdr :: body) := hU
            obtain ⟨hhdr, hbody⟩ := List.cons_eq_cons.mp (Except.ok.inj hU')
            rw [exec_select_unfold_noord2 fm ef lf db cols tbl join condition (some k) o
              T joined hdbm hjm]
            rw [exec_select_sub_limit fm ef lf cols tbl join condition k o
              (T :: joined.map (·.1))
              (((T, tbl.aliasName) :: joined).enum.foldl (fun m p =>
                match p.2.2 with
                | some a => aliasInsert m a p.1
                | none => m)
                (match tbl.aliasName with
                 | some a => [(a, 0)]
                 | none => []))
              (extend_colspecs (T :: joined.map (·.1)) cols).1
              (extend_colspecs_noagg (T :: joined.map (·.1)) cols hna) rows hsub]
            show (Except.ok ((extend_colspecs (T :: joined.map (·.1)) cols).2 ::
                ((rows.drop (o.getD 0)).take k)) :
                Except ExecError (List (List String))) =
              .ok (hdr :: ((body.drop (o.getD 0)).take k))
            rw [hhdr, hbody]
        · exact absurd hna (by simp)

/-- Witness for `c8_amended`: `SELECT * FROM t LIMIT 1 OFFSET 1` emits
exactly row 1 of the un-limited result. -/
theorem c8_amended_witness :
    (colsNoAgg (⟨[.wildcard], ⟨"t", none⟩, [], none, none, none, some 1⟩ :
      SelectStmt).cols = true ∨
      (⟨[.wildcard], ⟨"t", none⟩, [], none, none, none, some 1⟩ :
      SelectStmt).ordering.isSome = true) ∧
    exec_select unitFloat 3 9 exDb
      { (⟨[.wildcard], ⟨"t", none⟩, [], none, none, none, some 1⟩ : SelectStmt) with limit := none, offset := none } =
      .ok (["id", "name"] :: [["1", "a"], ["2", "b"], ["3", "c"]]) ∧
    (exec_select unitFloat 3 9 exDb
      { (⟨[.wildcard], ⟨"t", none⟩, [], none, none, none, some 1⟩ : SelectStmt) with limit := some 1 } =
      .ok (["id", "name"] ::
        (([["1", "a"], ["2", "b"], ["3", "c"]].drop
          ((⟨[.wildcard], ⟨"t", none⟩, [], none, none, none, some 1⟩ :
            SelectStmt).offset.getD 0)).take 1)) ∧
    (([["1", "a"], ["2", "b"], ["3", "c"]].drop
        ((⟨[.wildcard], ⟨"t", none⟩, [], none, none, none, some 1⟩ :
          SelectStmt).offset.getD 0)).take 1).length ≤ 1) :=
  ⟨Or.inl rfl, rfl,
    c8_amended unitFloat 3 9 exDb _ 1 ["id", "name"]
      [["1", "a"], ["2", "b"], ["3", "c"]] (Or.inl rfl) rfl⟩

/-- Witness for `c1_amended`: `SELECT count(*) FROM t` on the three-row
fixture yields "3". -/
theorem c1_amended_witness :
    dbGet exDb "t" = some exT ∧ 1 ≤ exT.rows ∧ 1 ≤ 2 ∧ exT.rows + 1 ≤ 9 ∧
    1 ≤ c1Matches unitFloat 2 exT none ∧
    exec_select unitFloat 2 9 exDb (selectCount "t" none) =
      .ok [["count(*)"], [toString (c1Matches unitFloat 2 exT none)]] :=
  ⟨rfl, by decide, by decide, by decide, by decide,
    c1_amended unitFloat 2 9 exDb "t" exT none rfl (by decide) (by decide) (by decide)
      (fun w h => nomatch h) (by decide)⟩

/-- Witness for `c2_amended`: `SELECT * FROM t` on the three-row fixture
yields the header and its three stored rows. -/
theorem c2_amended_witness :
    dbGet exDb "t" = some exT ∧ (exT.schema.map (·.name)).Nodup ∧ 1 ≤ exT.rows ∧
    1 ≤ 2 ∧ exT.rows + 2 ≤ 9 ∧
    exec_select unitFloat 2 9 exDb (selectStar "t") =
      .ok ((exT.schema.map (·.name)) :: (List.range exT.rows).map (tableRow exT)) :=
  ⟨rfl, by decide, by decide, by decide, by decide,
    c2_amended unitFloat 2 9 exDb "t" exT rfl (by decide) (by decide) (by decide)
      (by decide)⟩

/-- Witness for `c6_amended`: a WHERE / projection referencing a missing
column errs, and the error surfaces unchanged from the loop. -/
theorem c6_amended_witness :
    eval_expr unitFloat 2 .whereCond [] (Expr.column ⟨none, "nosuch"⟩) (wildcardCols exT)
      [exT] [] [⟨some 0, false⟩] ({} : AggregateResult Unit) =
      .error (.colNotFound "nosuch") ∧
    check_print unitFloat 2 (⟨[.wildcard], ⟨"t", none⟩, [], some (Expr.column
      ⟨none, "nosuch"⟩), none, none, none⟩ : SelectStmt) (wildcardCols exT) [exT] []
      [false] false [⟨some 0, false⟩] = .error (.eval (.colNotFound "nosuch")) ∧
    nonAggLoop unitFloat 2 (⟨[.wildcard], ⟨"t", none⟩, [], some (Expr.column
      ⟨none, "nosuch"⟩), none, none, none⟩ : SelectStmt) (wildcardCols exT) [exT] []
      [false] false [exT.rows] 1 [⟨some 0, false⟩] 0 =
      .error (.eval (.colNotFound "nosuch")) ∧
    eval_cells unitFloat 2 [Expr.column ⟨none, "nosuch"⟩] [exT] []
      ([(⟨some 0, false⟩ : RowCursor)].map fun rc => ⟨rc.row, true⟩)
      ({} : AggregateResult Unit) = .error (.eval (.colNotFound "nosuch")) ∧
    nonAggLoop unitFloat 2 (selectStar "t") [Expr.column ⟨none, "nosuch"⟩] [exT] []
      [false] false [exT.rows] 1 [⟨some 0, false⟩] 0 =
      .error (.eval (.colNotFound "nosuch")) :=
  ⟨rfl,
    (c6_amended unitFloat 2 _ (wildcardCols exT) [exT] [] [false] false [exT.rows]
      [⟨some 0, false⟩] 0 0).1 (Expr.column ⟨none, "nosuch"⟩) (.colNotFound "nosuch")
      rfl rfl rfl rfl,
    (c6_amended unitFloat 2 _ (wildcardCols exT) [exT] [] [false] false [exT.rows]
      [⟨some 0, false⟩] 0 0).2.1 (.eval (.colNotFound "nosuch")) rfl rfl,
    rfl,
    (c6_amended unitFloat 2 (selectStar "t") [Expr.column ⟨none, "nosuch"⟩] [exT] []
      [false] false [exT.rows] [⟨some 0, false⟩] 0 0).2.2
      (.eval (.colNotFound "nosuch")) rfl rfl rfl⟩

/-- Witness for `c7_ambiguity_panics`: the unique-occurrence case resolves
"x" to table `exA2` at position 1, column 0. -/
theorem c7_ambiguity_panics_witness :
    (∀ u ∈ [exT], tableHasCol u "x" = false) ∧
    (∀ u ∈ ([] : List Table), tableHasCol u "x" = false) ∧
    tableHasCol exA2 "x" = true ∧
    find_col ([exT] ++ exA2 :: []) [] ⟨none, "x"⟩ =
      .ok ((exA2.schema.enum.find? (fun q => q.2.name == "x")).map
        fun q => ColRef.mk exA2 [exT].length q.1) :=
  ⟨by decide, by decide, by decide,
    c7_ambiguity_panics.2 [exT] [] exA2 [] "x" (by decide) (by decide) (by decide)⟩

/-- Helper: `SELECT *` over two tables expands to both tables' qualified
columns and the concatenated schema names as the header. -/
theorem extend_colspecs_wildcard_pair (A B : Table) :
    extend_colspecs [A, B] [.wildcard] =
      (wildcardCols A ++ wildcardCols B,
        A.schema.map (·.name) ++ B.schema.map (·.name)) := by
  simp only [extend_colspecs, List.foldl_cons, List.foldl_nil]
  rw [schema_foldl_extend, schema_foldl_extend]
  simp [wildcardCols]

/-- Helper: with the constant `'false'` as INNER JOIN condition, the
admission check rejects every cursor combination. -/
theorem c3_check_inner {F : Type} (fm : FloatModel F) (e : Nat) (an bn : String)
    (cols : List Expr) (tables : List Table) (aliases : List (String × Nat))
    (cursor : List RowCursor) :
    check_print fm (e+1) (selectJoinFalse an bn .inner) cols tables aliases
      [false, false] false cursor = .ok false := by
  have hcb : coerce_bool "false" = false := by decide
  simp [check_print, selectJoinFalse, joinCondEval, eval_expr, hcb, List.enum,
    List.enumFrom]

/-- Helper: with the constant `'false'` as LEFT JOIN condition, the
admission check passes exactly at the padded combinations: left row present,
right cursor exhausted and not yet shown. -/
theorem c3_check_left {F : Type} (fm : FloatModel F) (e : Nat) (an bn : String)
    (cols : List Expr) (tables : List Table) (aliases : List (String × Nat))
    (ca cb : RowCursor) :
    check_print fm (e+1) (selectJoinFalse an bn .left) cols tables aliases
      [false, true] true [ca, cb] =
      .ok (ca.row.isSome && (cb.row.isNone && !cb.shown)) := by
  have hcb : coerce_bool "false" = false := by decide
  simp [check_print, selectJoinFalse, joinCondEval, eval_expr, hcb, List.enum,
    List.enumFrom, List.zip]
  cases hav : ca.row.isSome <;> cases hb : cb.row <;> cases hs : cb.shown <;>
    simp [hav, hb, hs]

/-- Helper: incrementing a two-table cursor whose right digit holds a row
advances the right digit only. -/
theorem c3_incr_someB (ca : RowCursor) (j : Nat) (sb : Bool) (m n : Nat) :
    incr_row_cursor [ca, ⟨some j, sb⟩] [m, n] =
      (true, [ca, ⟨if j + 1 < n then some (j+1) else none, sb⟩]) := rfl

/-- Helper: incrementing past an exhausted right digit restarts it and
advances the left digit. -/
theorem c3_incr_noneB (i : Nat) (sa sb : Bool) (m n : Nat) :
    incr_row_cursor [⟨some i, sa⟩, ⟨none, sb⟩] [m, n] =
      (true, [⟨if i + 1 < m then some (i+1) else none, sa⟩, ⟨some 0, false⟩]) := rfl

/-- Helper: incrementing a fully exhausted two-table cursor reports
exhaustion (with the right digit restarted in place). -/
theorem c3_incr_noneA_noneB (sa sb : Bool) (m n : Nat) :
    incr_row_cursor [⟨none, sa⟩, ⟨none, sb⟩] [m, n] =
      (false, [⟨none, sa⟩, ⟨some 0, false⟩]) := rfl

/-- Helper: a column qualified with the first table's name resolves into the
first table. -/
theorem find_col_qualified_pair_A (A B : Table) (nm : String) :
    find_col [A, B] [] ⟨some A.name, nm⟩ =
      .ok ((A.schema.enum.find? (fun p => p.2.name == nm)).map
        fun p => ColRef.mk A 0 p.1) := by
  have hself : (A.name == A.name) = true := beq_self_eq_true A.name
  simp [find_col, aliasLookup, List.find?, hself, List.enum, List.enumFrom]

/-- Helper: a column qualified with the second table's name resolves into
the second table when the table names differ. -/
theorem find_col_qualified_pair_B (A B : Table) (nm : String) (hAB : A.name ≠ B.name) :
    find_col [A, B] [] ⟨some B.name, nm⟩ =
      .ok ((B.schema.enum.find? (fun p => p.2.name == nm)).map
        fun p => ColRef.mk B 1 p.1) := by
  have hne : (A.name == B.name) = false := beq_eq_false_iff_ne.mpr hAB
  have hself : (B.name == B.name) = true := beq_self_eq_true B.name
  simp [find_col, aliasLookup, List.find?, hne, hself, List.enum, List.enumFrom]

/-- Helper: in a two-table context, a qualified reference to the `j`-th
column of the first table at row `i` yields its stored cell. -/
theorem c3_eval_cellA {F : Type} (fm : FloatModel F) (e : Nat) (A B : Table) (i : Nat)
    (sa : Bool) (cb : RowCursor)
    (hnd : (A.schema.map (·.name)).Nodup) (hi : i < A.rows)
    (j : Nat) (s : RowSchema) (hj : A.schema.get? j = some s)
    (cols : List Expr) (root : NodeRoot) (path : List Nat) :
    eval_expr fm (e+1) root path (.column ⟨some A.name, s.name⟩) cols [A, B] []
      [⟨some i, sa⟩, cb] {} = .ok (A.data.getD (j + i * A.schema.length) "") := by
  have hjlt : j < A.schema.length := by
    by_contra hge
    rw [List.get?_eq_none.mpr (by omega)] at hj
    exact Option.noConfusion hj
  have hfind := nodup_enumFrom_find? A.schema j 0 s hnd hj
  have hfc := find_col_qualified_pair_A A B s.name
  rw [show A.schema.enum = A.schema.enumFrom 0 from rfl, hfind] at hfc
  have hidx : j + i * A.schema.length < A.data.length := cell_index_lt A i j hi hjlt
  obtain ⟨v, hv⟩ : ∃ v, A.data.get? (j + i * A.schema.length) = some v :=
    Option.isSome_iff_exists.mp (by rw [List.get?_eq_get hidx]; rfl)
  show (match find_col [A, B] [] ⟨some A.name, s.name⟩ with
    | .error nm => Except.error (EvalError.panicColumnName nm)
    | .ok none => Except.error (EvalError.colNotFound s.name)
    | .ok (some cr) => cr.get [⟨some i, sa⟩, cb]) = _
  rw [hfc]
  show (ColRef.mk A 0 (0 + j)).get [⟨some i, sa⟩, cb] = _
  show (match A.get i (0 + j) with
    | none => Except.error (EvalError.rowNotFound i)
    | some v => Except.ok v) = _
  rw [show A.get i (0 + j) = A.data.get? (j + i * A.schema.length) by
    rw [Table.get, Nat.zero_add], hv]
  rw [List.getD_eq_getD_get?, hv]
  rfl

/-- Helper: in a two-table context with the right cursor exhausted, a
qualified reference to a column of the second table reads the cursor as
`CursorNone`. -/
theorem c3_eval_cellB {F : Type} (fm : FloatModel F) (e : Nat) (A B : Table)
    (ca : RowCursor) (sb : Bool) (hAB : A.name ≠ B.name) (nm : String)
    (hmem : B.schema.any (fun s => s.name == nm) = true)
    (cols : List Expr) (root : NodeRoot) (path : List Nat) :
    eval_expr fm (e+1) root path (.column ⟨some B.name, nm⟩) cols [A, B] []
      [ca, ⟨none, sb⟩] {} = .error (.cursorNone 1) := by
  obtain ⟨q, hq⟩ := enumFrom_find?_isSome_of_any nm B.schema 0 hmem
  have hfc := find_col_qualified_pair_B A B nm hAB
  rw [show B.schema.enum = B.schema.enumFrom 0 from rfl, hq] at hfc
  show (match find_col [A, B] [] ⟨some B.name, nm⟩ with
    | .error nm2 => Except.error (EvalError.panicColumnName nm2)
    | .ok none => Except.error (EvalError.colNotFound nm)
    | .ok (some cr) => cr.get [ca, ⟨none, sb⟩]) = _
  rw [hfc]
  rfl

/-- Helper: cell evaluation of the first table's wildcard suffix in a
two-table context. -/
theorem c3_eval_cells_auxA {F : Type} (fm : FloatModel F) (e : Nat) (A B : Table)
    (i : Nat) (sa : Bool) (cb : RowCursor) (colsE : List Expr)
    (hnd : (A.schema.map (·.name)).Nodup) (hi : i < A.rows) :
    ∀ (rest pre : List RowSchema) (pl : List (Nat × Expr)),
      A.schema = pre ++ rest →
      pl.map Prod.snd = rest.map (fun c => Expr.column ⟨some A.name, c.name⟩) →
      pl.mapM (fun p =>
        match eval_expr fm (e+1) (.col p.1) [] p.2 colsE [A, B] [] [⟨some i, sa⟩, cb]
            ({} : AggregateResult F) with
        | .ok v => Except.ok v
        | .error (.cursorNone _) => Except.ok ""
        | .error er => Except.error (ExecError.eval er)) =
      .ok ((List.range' pre.length rest.length).map
        (fun j => A.data.getD (j + i * A.schema.length) "")) := by
  intro rest
  induction rest with
  | nil =>
    intro pre pl _ hshape
    obtain rfl : pl = [] := by
      cases pl with
      | nil => rfl
      | cons hd tlp => simp at hshape
    rfl
  | cons s tl ih =>
    intro pre pl hschema hshape
    obtain ⟨k0, ex, pl', rfl⟩ : ∃ k0 ex pl', pl = (k0, ex) :: pl' := by
      cases pl with
      | nil => simp at hshape
      | cons hd tlp => exact ⟨hd.1, hd.2, tlp, rfl⟩
    rw [List.map_cons, List.map_cons] at hshape
    obtain ⟨hex, hshape'⟩ := List.cons_eq_cons.mp hshape
    have hj : A.schema.get? pre.length = some s := by
      rw [hschema, List.get?_append_right le_rfl, Nat.sub_self]
      rfl
    have hev := c3_eval_cellA fm e A B i sa cb hnd hi pre.length s hj colsE
      (.col k0) []
    rw [List.mapM_cons, hex, hev,
      ih (pre ++ [s]) pl' (by rw [hschema, List.append_assoc]; rfl) hshape']
    simp [List.range'_succ, List.length_append]
    rfl

/-- Helper: cell evaluation of the second table's wildcard suffix with the
right cursor exhausted: every cell is the empty string. -/
theorem c3_eval_cells_auxB {F : Type} (fm : FloatModel F) (e : Nat) (A B : Table)
    (ca : RowCursor) (sb : Bool) (colsE : List Expr) (hAB : A.name ≠ B.name) :
    ∀ (rest : List RowSchema) (pl : List (Nat × Expr)),
      (∀ s ∈ rest, B.schema.any (fun c => c.name == s.name) = true) →
      pl.map Prod.snd = rest.map (fun c => Expr.column ⟨some B.name, c.name⟩) →
      pl.mapM (fun p =>
        match eval_expr fm (e+1) (.col p.1) [] p.2 colsE [A, B] [] [ca, ⟨none, sb⟩]
            ({} : AggregateResult F) with
        | .ok v => Except.ok v
        | .error (.cursorNone _) => Except.ok ""
        | .error er => Except.error (ExecError.eval er)) =
      .ok (rest.map (fun _ => "")) := by
  intro rest
  induction rest with
  | nil =>
    intro pl _ hshape
    obtain rfl : pl = [] := by
      cases pl with
      | nil => rfl
      | cons hd tlp => simp at hshape
    rfl
  | cons s tl ih =>
    intro pl hmem hshape
    obtain ⟨k0, ex, pl', rfl⟩ : ∃ k0 ex pl', pl = (k0, ex) :: pl' := by
      cases pl with
      | nil => simp at hshape
      | cons hd tlp => exact ⟨hd.1, hd.2, tlp, rfl⟩
    rw [List.map_cons, List.map_cons] at hshape
    obtain ⟨hex, hshape'⟩ := List.cons_eq_cons.mp hshape
    have hev := c3_eval_cellB fm e A B ca sb hAB s.name
      (hmem s (List.mem_cons_self s tl)) colsE (.col k0) []
    rw [List.mapM_cons, hex, hev,
      ih pl' (fun u hu => hmem u (List.mem_cons_of_mem s hu)) hshape']
    rfl

/-- Helper: full-row cell evaluation of the padded LEFT-JOIN combination:
the first table's stored row followed by empty cells for the second
table's columns. -/
theorem c3_eval_cells {F : Type} (fm : FloatModel F) (e : Nat) (A B : Table)
    (i : Nat) (sa sb : Bool)
    (hnd : (A.schema.map (·.name)).Nodup) (hAB : A.name ≠ B.name) (hi : i < A.rows) :
    eval_cells fm (e+1) (wildcardCols A ++ wildcardCols B) [A, B] []
      [⟨some i, sa⟩, ⟨none, sb⟩] {} =
      .ok (tableRow A i ++ List.replicate B.schema.length "") := by
  rw [eval_cells]
  rw [show (wildcardCols A ++ wildcardCols B).enum =
    (wildcardCols A).enum ++ (wildcardCols B).enumFrom (wildcardCols A).length by
    rw [show (wildcardCols A ++ wildcardCols B).enum =
      (wildcardCols A ++ wildcardCols B).enumFrom 0 from rfl, List.enumFrom_append,
      Nat.zero_add]
    rfl]
  rw [List.mapM_append]
  rw [c3_eval_cells_auxA fm e A B i sa ⟨none, sb⟩ (wildcardCols A ++ wildcardCols B)
    hnd hi A.schema [] ((wildcardCols A).enum) rfl
    (by rw [List.enum_map_snd, wildcardCols])]
  simp only [c3_eval_cells_auxB fm e A B ⟨some i, sa⟩ sb
    (wildcardCols A ++ wildcardCols B) hAB B.schema
    ((wildcardCols B).enumFrom (wildcardCols A).length)
    (fun s hs => List.any_eq_true.mpr ⟨s, hs, beq_self_eq_true s.name⟩)
    (by rw [List.enumFrom_map_snd, wildcardCols])]
  show Except.ok (((List.range' 0 A.schema.length).map
      (fun j => A.data.getD (j + i * A.schema.length) "")) ++ B.schema.map (fun _ => "")) = _
  have hrep : ∀ (l : List RowSchema), l.map (fun _ => ("" : String)) =
      List.replicate l.length "" := by
    intro l
    induction l with
    | nil => rfl
    | cons a tl ih => simp [ih, List.replicate_succ]
  rw [tableRow, List.range_eq_range', hrep]

/-- Helper: with the constant-false INNER JOIN condition the main loop
emits nothing, from any state. -/
theorem c3_inner_loop {F : Type} (fm : FloatModel F) (e : Nat) (an bn : String)
    (colsE : List Expr) (tables : List Table) (aliases : List (String × Nat))
    (counts : List Nat) :
    ∀ (fuel : Nat) (cursor : List RowCursor) (p : Nat) (rows : List (List String)),
      nonAggLoop fm (e+1) (selectJoinFalse an bn .inner) colsE tables aliases
        [false, false] false counts fuel cursor p = .ok rows → rows = [] := by
  intro fuel
  induction fuel with
  | zero =>
    intro cursor p rows h
    exact absurd h (by simp [nonAggLoop])
  | succ f ih =>
    intro cursor p rows h
    rw [nonAggLoop_step_fail fm (e+1) _ colsE tables aliases [false, false] false counts
      f cursor p rfl (c3_check_inner fm e an bn colsE tables aliases cursor)] at h
    rcases hincr : incr_row_cursor cursor counts with ⟨b2, c2⟩
    rw [hincr] at h
    cases b2 with
    | false =>
      have h' : (Except.ok [] : Except ExecError (List (List String))) = .ok rows := h
      exact (Except.ok.inj h').symm
    | true => exact ih c2 p rows h

/-- Helper: with the constant-false LEFT JOIN condition, the loop emits one
padded row per remaining left row — stated for the three reachable cursor
shapes (right row held, right exhausted un-shown, left exhausted). -/
theorem c3_left_loop {F : Type} (fm : FloatModel F) (e : Nat) (an bn : String)
    (A B : Table) (hnd : (A.schema.map (·.name)).Nodup) (hAB : A.name ≠ B.name) :
    ∀ (fuel : Nat),
      (∀ (i j : Nat) (sa : Bool) (p : Nat) (rows : List (List String)), i < A.rows →
        nonAggLoop fm (e+1) (selectJoinFalse an bn .left)
          (wildcardCols A ++ wildcardCols B) [A, B] [] [false, true] true
          [A.rows, B.rows] fuel [⟨some i, sa⟩, ⟨some j, false⟩] p = .ok rows →
        rows = (List.range' i (A.rows - i)).map
          (fun r => tableRow A r ++ List.replicate B.schema.length "")) ∧
      (∀ (i : Nat) (sa : Bool) (p : Nat) (rows : List (List String)), i < A.rows →
        nonAggLoop fm (e+1) (selectJoinFalse an bn .left)
          (wildcardCols A ++ wildcardCols B) [A, B] [] [false, true] true
          [A.rows, B.rows] fuel [⟨some i, sa⟩, ⟨none, false⟩] p = .ok rows →
        rows = (List.range' i (A.rows - i)).map
          (fun r => tableRow A r ++ List.replicate B.schema.length "")) ∧
      (∀ (sa : Bool) (cbr : Option Nat) (p : Nat) (rows : List (List String)),
        nonAggLoop fm (e+1) (selectJoinFalse an bn .left)
          (wildcardCols A ++ wildcardCols B) [A, B] [] [false, true] true
          [A.rows, B.rows] fuel [⟨none, sa⟩, ⟨cbr, false⟩] p = .ok rows →
        rows = []) := by
  intro fuel
  induction fuel with
  | zero =>
    refine ⟨?_, ?_, ?_⟩
    · intro i j sa p rows _ h
      exact absurd h (by simp [nonAggLoop])
    · intro i sa p rows _ h
      exact absurd h (by simp [nonAggLoop])
    · intro sa cbr p rows h
      exact absurd h (by simp [nonAggLoop])
  | succ f ih =>
    refine ⟨?_, ?_, ?_⟩
    · intro i j sa p rows hi h
      have hchk : check_print fm (e+1) (selectJoinFalse an bn .left)
          (wildcardCols A ++ wildcardCols B) [A, B] [] [false, true] true
          [⟨some i, sa⟩, ⟨some j, false⟩] = .ok false := by
        rw [c3_check_left fm e an bn (wildcardCols A ++ wildcardCols B) [A, B] []
          ⟨some i, sa⟩ ⟨some j, false⟩]
        rfl
      rw [nonAggLoop_step_fail fm (e+1) _ (wildcardCols A ++ wildcardCols B) [A, B] []
        [false, true] true [A.rows, B.rows] f _ p rfl hchk] at h
      rw [c3_incr_someB ⟨some i, sa⟩ j false A.rows B.rows] at h
      by_cases hjn : j + 1 < B.rows
      · rw [if_pos hjn] at h
        exact ih.1 i (j+1) sa p rows hi h
      · rw [if_neg hjn] at h
        exact ih.2.1 i sa p rows hi h
    · intro i sa p rows hi h
      have hchk : check_print fm (e+1) (selectJoinFalse an bn .left)
          (wildcardCols A ++ wildcardCols B) [A, B] [] [false, true] true
          [⟨some i, sa⟩, ⟨none, false⟩] = .ok true := by
        rw [c3_check_left fm e an bn (wildcardCols A ++ wildcardCols B) [A, B] []
          ⟨some i, sa⟩ ⟨none, false⟩]
        rfl
      rw [nonAggLoop_step_pass fm (e+1) _ (wildcardCols A ++ wildcardCols B) [A, B] []
        [false, true] true [A.rows, B.rows] f _ p
        (tableRow A i ++ List.replicate B.schema.length "") rfl rfl hchk
        (c3_eval_cells fm e A B i true true hnd hAB hi)] at h
      rw [show (([⟨some i, sa⟩, ⟨none, false⟩] : List RowCursor).map
        fun rc => (⟨rc.row, true⟩ : RowCursor)) =
        [⟨some i, true⟩, ⟨none, true⟩] from rfl] at h
      rw [c3_incr_noneB i true true A.rows B.rows] at h
      have hrange : List.range' i (A.rows - i) = i :: List.range' (i+1) (A.rows - (i+1)) := by
        rw [show A.rows - i = (A.rows - (i+1)) + 1 by omega, List.range'_succ]
      by_cases him : i + 1 < A.rows
      · rw [if_pos him] at h
        have h2 : (match nonAggLoop fm (e+1) (selectJoinFalse an bn .left)
            (wildcardCols A ++ wildcardCols B) [A, B] [] [false, true] true
            [A.rows, B.rows] f [⟨some (i+1), true⟩, ⟨some 0, false⟩] (p+1) with
          | Except.error er => Except.error er
          | Except.ok more =>
            Except.ok ((tableRow A i ++ List.replicate B.schema.length "") :: more)) =
            Except.ok rows := h
        cases hrec : nonAggLoop fm (e+1) (selectJoinFalse an bn .left)
            (wildcardCols A ++ wildcardCols B) [A, B] [] [false, true] true
            [A.rows, B.rows] f [⟨some (i+1), true⟩, ⟨some 0, false⟩] (p+1) with
        | error er =>
          rw [hrec] at h2
          exact absurd h2 (by simp)
        | ok more =>
          rw [hrec] at h2
          have h' : (Except.ok ((tableRow A i ++ List.replicate B.schema.length "") ::
              more) : Except ExecError (List (List String))) = .ok rows := h2
          obtain rfl : rows = (tableRow A i ++ List.replicate B.schema.length "") ::
              more := (Except.ok.inj h').symm
          rw [ih.1 (i+1) 0 true (p+1) more him hrec, hrange]
          rw [List.map_cons]
      · rw [if_neg him] at h
        have h2 : (match nonAggLoop fm (e+1) (selectJoinFalse an bn .left)
            (wildcardCols A ++ wildcardCols B) [A, B] [] [false, true] true
            [A.rows, B.rows] f [⟨none, true⟩, ⟨some 0, false⟩] (p+1) with
          | Except.error er => Except.error er
          | Except.ok more =>
            Except.ok ((tableRow A i ++ List.replicate B.schema.length "") :: more)) =
            Except.ok rows := h
        cases hrec : nonAggLoop fm (e+1) (selectJoinFalse an bn .left)
            (wildcardCols A ++ wildcardCols B) [A, B] [] [false, true] true
            [A.rows, B.rows] f [⟨none, true⟩, ⟨some 0, false⟩] (p+1) with
        | error er =>
          rw [hrec] at h2
          exact absurd h2 (by simp)
        | ok more =>
          rw [hrec] at h2
          have h' : (Except.ok ((tableRow A i ++ List.replicate B.schema.length "") ::
              more) : Except ExecError (List (List String))) = .ok rows := h2
          obtain rfl : rows = (tableRow A i ++ List.replicate B.schema.length "") ::
              more := (Except.ok.inj h').symm
          rw [ih.2.2 true (some 0) (p+1) more hrec, hrange,
            show A.rows - (i+1) = 0 by omega]
          rfl
    · intro sa cbr p rows h
      have hchk : check_print fm (e+1) (selectJoinFalse an bn .left)
          (wildcardCols A ++ wildcardCols B) [A, B] [] [false, true] true
          [⟨none, sa⟩, ⟨cbr, false⟩] = .ok false := by
        rw [c3_check_left fm e an bn (wildcardCols A ++ wildcardCols B) [A, B] []
          ⟨none, sa⟩ ⟨cbr, false⟩]
        rfl
      rw [nonAggLoop_step_fail fm (e+1) _ (wildcardCols A ++ wildcardCols B) [A, B] []
        [false, true] true [A.rows, B.rows] f _ p rfl hchk] at h
      cases cbr with
      | some j =>
        rw [c3_incr_someB ⟨none, sa⟩ j false A.rows B.rows] at h
        exact ih.2.2 sa _ p rows h
      | none =>
        rw [c3_incr_noneA_noneB sa false A.rows B.rows] at h
        have h' : (Except.ok [] : Except ExecError (List (List String))) = .ok rows := h
        exact (Except.ok.inj h').symm

/-- Helper: the non-aggregated branch of `exec_select_sub` over a resolved
two-table join. -/
theorem exec_select_sub_join_pair {F : Type} (fm : FloatModel F) (ef lf : Nat)
    (an bn : String) (kind : JoinKind) (A B : Table) (colsE : List Expr)
    (hsA : A.schema.isEmpty = false) (hsB : B.schema.isEmpty = false)
    (hagg : colsE.any find_aggregate_fn = false) :
    exec_select_sub fm ef lf (selectJoinFalse an bn kind) [A, B] [] colsE =
      nonAggLoop fm ef (selectJoinFalse an bn kind) colsE [A, B] []
        [false, kind == JoinKind.left] (kind == JoinKind.left) [A.rows, B.rows] lf
        [⟨some 0, false⟩, ⟨some 0, false⟩] 0 := by
  simp only [exec_select_sub]
  rw [if_neg (by simp [hsA, hsB])]
  simp only [hagg, Bool.false_eq_true, if_false, selectJoinFalse, List.map_cons,
    List.map_nil, List.any_cons, List.any_nil, id_eq, Bool.false_or, Bool.or_false]
  rfl

/-- Helper: wildcard projections contain no aggregate call. -/
theorem wildcardCols_noagg (T : Table) :
    (wildcardCols T).any find_aggregate_fn = false := by
  refine List.any_eq_false.mpr ?_
  intro x hx
  rw [wildcardCols] at hx
  obtain ⟨c, _, rfl⟩ := List.mem_map.mp hx
  simp [find_aggregate_fn]

/-- C3 amended: with the constant `'false'` join condition, INNER JOIN
emits no data row, and LEFT JOIN — provided the left table is non-empty,
its schema names are distinct and the table names differ — emits exactly
one padded row per left row, with every right-table cell the empty string.
On an empty left table the LEFT JOIN instead errs (`c3_counterexample`). -/
theorem c3_amended {F : Type} (fm : FloatModel F) (ef lf : Nat) (db : Database)
    (an bn : String) (A B : Table)
    (hdbA : dbGet db an = some A) (hdbB : dbGet db bn = some B) (hef : 1 ≤ ef) :
    (∀ rows, exec_select fm ef lf db (selectJoinFalse an bn .inner) = .ok rows →
      rows = [A.schema.map (·.name) ++ B.schema.map (·.name)]) ∧
    ((A.schema.map (·.name)).Nodup → A.name ≠ B.name → 1 ≤ A.rows →
      ∀ rows, exec_select fm ef lf db (selectJoinFalse an bn .left) = .ok rows →
        rows = (A.schema.map (·.name) ++ B.schema.map (·.name)) ::
          (List.range A.rows).map
            (fun r => tableRow A r ++ List.replicate B.schema.length "")) := by
  obtain ⟨e, rfl⟩ : ∃ e, ef = e + 1 := ⟨ef - 1, by omega⟩
  have hjm : ∀ (kind : JoinKind),
      ([(⟨kind, ⟨bn, none⟩, Expr.strLiteral "false"⟩ : JoinClause)]).mapM
        (fun j => match dbGet db j.table.name with
          | some t => Except.ok (t, j.table.aliasName)
          | none => Except.error (ExecError.tableNotFound j.table.name)) =
      .ok [(B, none)] := by
    intro kind
    simp only [List.mapM, List.mapM.loop, hdbB]
    rfl
  have hagg : (wildcardCols A ++ wildcardCols B).any find_aggregate_fn = false := by
    rw [List.any_append, wildcardCols_noagg, wildcardCols_noagg]
    rfl
  constructor
  · intro rows hU
    rw [show selectJoinFalse an bn .inner = (⟨[.wildcard], ⟨an, none⟩,
      [⟨.inner, ⟨bn, none⟩, .strLiteral "false"⟩], none, none, none, none⟩ :
      SelectStmt) from rfl] at hU
    rw [exec_select_unfold_noord2 fm (e+1) lf db [.wildcard] ⟨an, none⟩
      [⟨.inner, ⟨bn, none⟩, .strLiteral "false"⟩] none none none A [(B, none)]
      hdbA (hjm .inner)] at hU
    have hU2 : (match exec_select_sub fm (e+1) lf (selectJoinFalse an bn .inner) [A, B]
        [] (extend_colspecs [A, B] [.wildcard]).1 with
      | Except.error e2 => Except.error e2
      | Except.ok rows2 =>
        Except.ok ((extend_colspecs [A, B] [.wildcard]).2 :: rows2)) =
        Except.ok rows := hU
    rw [extend_colspecs_wildcard_pair] at hU2
    by_cases hempty : [A, B].any (fun t => t.schema.isEmpty) = true
    · have hsub : exec_select_sub fm (e+1) lf (selectJoinFalse an bn .inner) [A, B] []
          (wildcardCols A, A.schema.map (·.name)).1 = .error (.panicked "division by zero") := by
        simp only [exec_select_sub]
        rw [if_pos hempty]
      rw [show ((wildcardCols A ++ wildcardCols B,
        A.schema.map (·.name) ++ B.schema.map (·.name)) :
        List Expr × List String).1 = wildcardCols A ++ wildcardCols B from rfl] at hU2
      have hsub2 : exec_select_sub fm (e+1) lf (selectJoinFalse an bn .inner) [A, B] []
          (wildcardCols A ++ wildcardCols B) = .error (.panicked "division by zero") := by
        simp only [exec_select_sub]
        rw [if_pos hempty]
      rw [hsub2] at hU2
      have hc : (Except.error (ExecError.panicked "division by zero") :
          Except ExecError (List (List String))) = Except.ok rows := hU2
      cases hc
    · have hsA : A.schema.isEmpty = false := by
        cases hval : A.schema.isEmpty with
        | false => rfl
        | true => exact absurd (by simp [hval]) hempty
      have hsB : B.schema.isEmpty = false := by
        cases hval : B.schema.isEmpty with
        | false => rfl
        | true => exact absurd (by simp [hval]) hempty
      rw [show ((wildcardCols A ++ wildcardCols B,
        A.schema.map (·.name) ++ B.schema.map (·.name)) :
        List Expr × List String).1 = wildcardCols A ++ wildcardCols B from rfl] at hU2
      rw [exec_select_sub_join_pair fm (e+1) lf an bn .inner A B
        (wildcardCols A ++ wildcardCols B) hsA hsB hagg] at hU2
      have hU3 : (match nonAggLoop fm (e+1) (selectJoinFalse an bn .inner)
          (wildcardCols A ++ wildcardCols B) [A, B] [] [false, false] false
          [A.rows, B.rows] lf [⟨some 0, false⟩, ⟨some 0, false⟩] 0 with
        | Except.error e2 => Except.error e2
        | Except.ok rows2 =>
          Except.ok ((A.schema.map (·.name) ++ B.schema.map (·.name)) :: rows2)) =
          Except.ok rows := hU2
      cases hloop : nonAggLoop fm (e+1) (selectJoinFalse an bn .inner)
          (wildcardCols A ++ wildcardCols B) [A, B] [] [false, false] false
          [A.rows, B.rows] lf [⟨some 0, false⟩, ⟨some 0, false⟩] 0 with
      | error er =>
        rw [hloop] at hU3
        have hc : (Except.error er : Except ExecError (List (List String))) =
            Except.ok rows := hU3
        cases hc
      | ok rows2 =>
        rw [hloop] at hU3
        have hc : (Except.ok ((A.schema.map (·.name) ++ B.schema.map (·.name)) :: rows2) :
            Except ExecError (List (List String))) = Except.ok rows := hU3
        obtain rfl : rows = (A.schema.map (·.name) ++ B.schema.map (·.name)) :: rows2 :=
          (Except.ok.inj hc).symm
        rw [c3_inner_loop fm e an bn (wildcardCols A ++ wildcardCols B) [A, B] []
          [A.rows, B.rows] lf _ 0 rows2 hloop]
  · intro hnd hAB hm rows hU
    rw [show selectJoinFalse an bn .left = (⟨[.wildcard], ⟨an, none⟩,
      [⟨.left, ⟨bn, none⟩, .strLiteral "false"⟩], none, none, none, none⟩ :
      SelectStmt) from rfl] at hU
    rw [exec_select_unfold_noord2 fm (e+1) lf db [.wildcard] ⟨an, none⟩
      [⟨.left, ⟨bn, none⟩, .strLiteral "false"⟩] none none none A [(B, none)]
      hdbA (hjm .left)] at hU
    have hU2 : (match exec_select_sub fm (e+1) lf (selectJoinFalse an bn .left) [A, B]
        [] (extend_colspecs [A, B] [.wildcard]).1 with
      | Except.error e2 => Except.error e2
      | Except.ok rows2 =>
        Except.ok ((extend_colspecs [A, B] [.wildcard]).2 :: rows2)) =
        Except.ok rows := hU
    rw [extend_colspecs_wildcard_pair] at hU2
    rw [show ((wildcardCols A ++ wildcardCols B,
      A.schema.map (·.name) ++ B.schema.map (·.name)) :
      List Expr × List String).1 = wildcardCols A ++ wildcardCols B from rfl] at hU2
    by_cases hempty : [A, B].any (fun t => t.schema.isEmpty) = true
    · have hsub2 : exec_select_sub fm (e+1) lf (selectJoinFalse an bn .left) [A, B] []
          (wildcardCols A ++ wildcardCols B) = .error (.panicked "division by zero") := by
        simp only [exec_select_sub]
        rw [if_pos hempty]
      rw [hsub2] at hU2
      have hc : (Except.error (ExecError.panicked "division by zero") :
          Except ExecError (List (List String))) = Except.ok rows := hU2
      cases hc
    · have hsA : A.schema.isEmpty = false := by
        cases hval : A.schema.isEmpty with
        | false => rfl
        | true => exact absurd (by simp [hval]) hempty
      have hsB : B.schema.isEmpty = false := by
        cases hval : B.schema.isEmpty with
        | false => rfl
        | true => exact absurd (by simp [hval]) hempty
      rw [exec_select_sub_join_pair fm (e+1) lf an bn .left A B
        (wildcardCols A ++ wildcardCols B) hsA hsB hagg] at hU2
      have hU3 : (match nonAggLoop fm (e+1) (selectJoinFalse an bn .left)
          (wildcardCols A ++ wildcardCols B) [A, B] [] [false, true] true
          [A.rows, B.rows] lf [⟨some 0, false⟩, ⟨some 0, false⟩] 0 with
        | Except.error e2 => Except.error e2
        | Except.ok rows2 =>
          Except.ok ((A.schema.map (·.name) ++ B.schema.map (·.name)) :: rows2)) =
          Except.ok rows := hU2
      cases hloop : nonAggLoop fm (e+1) (selectJoinFalse an bn .left)
          (wildcardCols A ++ wildcardCols B) [A, B] [] [false, true] true
          [A.rows, B.rows] lf [⟨some 0, false⟩, ⟨some 0, false⟩] 0 with
      | error er =>
        rw [hloop] at hU3
        have hc : (Except.error er : Except ExecError (List (List String))) =
            Except.ok rows := hU3
        cases hc
      | ok rows2 =>
        rw [hloop] at hU3
        have hc : (Except.ok ((A.schema.map (·.name) ++ B.schema.map (·.name)) :: rows2) :
            Except ExecError (List (List String))) = Except.ok rows := hU3
        obtain rfl : rows = (A.schema.map (·.name) ++ B.schema.map (·.name)) :: rows2 :=
          (Except.ok.inj hc).symm
        rw [(c3_left_loop fm e an bn A B hnd hAB lf).1 0 0 false 0 rows2 (by omega) hloop]
        rw [show List.range' 0 (A.rows - 0) = List.range A.rows by
          simp [List.range_eq_range']]

/-- Witness for `c3_amended`: over a two-row left table and a one-row right
table, the false-condition INNER JOIN emits only the header, and the LEFT
JOIN emits the two left rows padded with an empty cell. -/
theorem c3_amended_witness :
    dbGet exDbAB "A" = some exA ∧ dbGet exDbAB "B" = some exB ∧
    exec_select unitFloat 2 12 exDbAB (selectJoinFalse "A" "B" .inner) =
      .ok [["a", "b"]] ∧
    ([["a", "b"]] : List (List String)) =
      [exA.schema.map (·.name) ++ exB.schema.map (·.name)] ∧
    exec_select unitFloat 2 12 exDbAB (selectJoinFalse "A" "B" .left) =
      .ok [["a", "b"], ["a1", ""], ["a2", ""]] ∧
    ([["a", "b"], ["a1", ""], ["a2", ""]] : List (List String)) =
      (exA.schema.map (·.name) ++ exB.schema.map (·.name)) ::
        (List.range exA.rows).map
          (fun r => tableRow exA r ++ List.replicate exB.schema.length "") :=
  ⟨rfl, rfl, rfl,
    (c3_amended unitFloat 2 12 exDbAB "A" "B" exA exB rfl rfl (by decide)).1 _ rfl,
    rfl,
    (c3_amended unitFloat 2 12 exDbAB "A" "B" exA exB rfl rfl (by decide)).2
      (by decide) (by decide) (by decide) _ rfl⟩

/-- Helper: a column read depends on the cursor only through its row
components. -/
theorem ColRef_get_rows_congr (c1 c2 : List RowCursor)
    (h : c1.map (·.row) = c2.map (·.row)) (cr : ColRef) :
    cr.get c1 = cr.get c2 := by
  have h2 : (c1.get? cr.joindex).map (·.row) = (c2.get? cr.joindex).map (·.row) := by
    rw [← List.get?_map, ← List.get?_map, h]
  cases ha : c1.get? cr.joindex with
  | none =>
    cases hb : c2.get? cr.joindex with
    | none => simp only [ColRef.get, ha, hb]
    | some rb =>
      rw [ha, hb] at h2
      simp at h2
  | some ra =>
    cases hb : c2.get? cr.joindex with
    | none =>
      rw [ha, hb] at h2
      simp at h2
    | some rb =>
      rw [ha, hb] at h2
      simp only [Option.map_some'] at h2
      have hr : ra.row = rb.row := Option.some.inj h2
      simp only [ColRef.get, ha, hb, hr]

/-- Helper: expression evaluation depends on the cursor only through its
row components (`shown` is never read by `eval_expr`). -/
theorem eval_expr_rows_congr {F : Type} (fm : FloatModel F) :
    ∀ (fuel : Nat) (cols : List Expr) (tables : List Table)
      (aliases : List (String × Nat)) (c1 c2 : List RowCursor)
      (aggs : AggregateResult F),
      c1.map (·.row) = c2.map (·.row) →
      ∀ (root : NodeRoot) (path : List Nat) (e : Expr),
      eval_expr fm fuel root path e cols tables aliases c1 aggs =
        eval_expr fm fuel root path e cols tables aliases c2 aggs := by
  intro fuel
  induction fuel with
  | zero => intro cols tables aliases c1 c2 aggs h root path e; rfl
  | succ f ih =>
    intro cols tables aliases c1 c2 aggs h root path e
    have ihc : ∀ (root : NodeRoot) (path : List Nat) (e : Expr),
        eval_expr fm f root path e cols tables aliases c1 aggs =
          eval_expr fm f root path e cols tables aliases c2 aggs :=
      fun root path e => ih cols tables aliases c1 c2 aggs h root path e
    have hget : ∀ cr : ColRef, cr.get c1 = cr.get c2 :=
      ColRef_get_rows_congr c1 c2 h
    simp only [eval_expr, ihc, hget]

/-- Helper: the join-free admission check depends on the cursor only
through its row components. -/
theorem check_print_rows_congr {F : Type} (fm : FloatModel F) (ef : Nat)
    (sql : SelectStmt) (cols : List Expr) (tables : List Table)
    (aliases : List (String × Nat)) (jan : List Bool) (hl : Bool)
    (c1 c2 : List RowCursor) (hj : sql.join = [])
    (h : c1.map (·.row) = c2.map (·.row)) :
    check_print fm ef sql cols tables aliases jan hl c1 =
      check_print fm ef sql cols tables aliases jan hl c2 := by
  have hall : c1.all (fun r => r.row.isSome) = c2.all (fun r => r.row.isSome) := by
    have e1 : ∀ (l : List RowCursor),
        l.all (fun r => r.row.isSome) = (l.map (·.row)).all (fun o => o.isSome) := by
      intro l
      induction l with
      | nil => rfl
      | cons a tl ih => simp [ih]
    rw [e1, e1, h]
  have hev : ∀ (cond : Expr),
      eval_expr fm ef .whereCond [] cond cols tables aliases c1 {} =
        eval_expr fm ef .whereCond [] cond cols tables aliases c2 {} :=
    fun cond => eval_expr_rows_congr fm ef cols tables aliases c1 c2 {} h .whereCond [] cond
  simp only [check_print, hj, hall, hev, List.isEmpty_nil, if_true]

/-- Helper: one step of the aggregated-loop trace when the check errs. -/
theorem aggLoopTrace_step_error {F : Type} (fm : FloatModel F) (ef : Nat)
    (sql : SelectStmt) (cols : List Expr) (tables : List Table)
    (aliases : List (String × Nat)) (jan : List Bool) (hl : Bool) (counts : List Nat)
    (fuel : Nat) (cursor : List RowCursor) (ra : AggregateResult F) (er : ExecError)
    (hchk : check_print fm ef sql cols tables aliases jan hl cursor = .error er) :
    aggLoopTrace fm ef sql cols tables aliases jan hl counts (fuel+1) cursor ra =
      .error er := by
  simp only [aggLoopTrace, hchk]

/-- Helper: one step of the aggregated-loop trace when the fold errs. -/
theorem aggLoopTrace_step_folderr {F : Type} (fm : FloatModel F) (ef : Nat)
    (sql : SelectStmt) (cols : List Expr) (tables : List Table)
    (aliases : List (String × Nat)) (jan : List Bool) (hl : Bool) (counts : List Nat)
    (fuel : Nat) (cursor : List RowCursor) (ra : AggregateResult F) (pass : Bool)
    (er : ExecError)
    (hchk : check_print fm ef sql cols tables aliases jan hl cursor = .ok pass)
    (hfold : aggFoldCols fm ef sql cols tables aliases jan hl cursor cols.enum ra =
      .error er) :
    aggLoopTrace fm ef sql cols tables aliases jan hl counts (fuel+1) cursor ra =
      .error er := by
  simp only [aggLoopTrace, hchk, hfold]

/-- Helper: one step of the aggregated-loop trace when check and fold
succeed. -/
theorem aggLoopTrace_step {F : Type} (fm : FloatModel F) (ef : Nat)
    (sql : SelectStmt) (cols : List Expr) (tables : List Table)
    (aliases : List (String × Nat)) (jan : List Bool) (hl : Bool) (counts : List Nat)
    (fuel : Nat) (cursor : List RowCursor) (ra : AggregateResult F) (pass : Bool)
    (ra' : AggregateResult F)
    (hchk : check_print fm ef sql cols tables aliases jan hl cursor = .ok pass)
    (hfold : aggFoldCols fm ef sql cols tables aliases jan hl cursor cols.enum ra =
      .ok ra') :
    aggLoopTrace fm ef sql cols tables aliases jan hl counts (fuel+1) cursor ra =
      (match incr_row_cursor cursor counts with
       | (false, _) => .ok (if pass then [cursorRows cursor] else [])
       | (true, c2) =>
         if c2.any (fun r => r.row.isNone) then
           .ok (if pass then [cursorRows cursor] else [])
         else
           match aggLoopTrace fm ef sql cols tables aliases jan hl counts fuel c2 ra' with
           | .error e => .error e
           | .ok more => .ok ((if pass then [cursorRows cursor] else []) ++ more)) := by
  simp only [aggLoopTrace, hchk, hfold]

/-- Helper: one step of the gate trace at an admitted combination. -/
theorem nonAggGateTrace_step_pass {F : Type} (fm : FloatModel F) (ef : Nat)
    (sql : SelectStmt) (cols : List Expr) (tables : List Table)
    (aliases : List (String × Nat)) (jan : List Bool) (hl : Bool) (counts : List Nat)
    (fuel : Nat) (cursor : List RowCursor)
    (hchk : check_print fm ef sql cols tables aliases jan hl cursor = .ok true) :
    nonAggGateTrace fm ef sql cols tables aliases jan hl counts (fuel+1) cursor =
      (match incr_row_cursor (cursor.map fun rc => ⟨rc.row, true⟩) counts with
       | (false, _) => .ok [cursorRows cursor]
       | (true, c2) =>
         match nonAggGateTrace fm ef sql cols tables aliases jan hl counts fuel c2 with
         | .error e => .error e
         | .ok more => .ok (cursorRows cursor :: more)) := by
  simp only [nonAggGateTrace, hchk]

/-- Helper: one step of the gate trace at a rejected combination. -/
theorem nonAggGateTrace_step_fail {F : Type} (fm : FloatModel F) (ef : Nat)
    (sql : SelectStmt) (cols : List Expr) (tables : List Table)
    (aliases : List (String × Nat)) (jan : List Bool) (hl : Bool) (counts : List Nat)
    (fuel : Nat) (cursor : List RowCursor)
    (hchk : check_print fm ef sql cols tables aliases jan hl cursor = .ok false) :
    nonAggGateTrace fm ef sql cols tables aliases jan hl counts (fuel+1) cursor =
      (match incr_row_cursor cursor counts with
       | (false, _) => .ok []
       | (true, c2) => nonAggGateTrace fm ef sql cols tables aliases jan hl counts fuel c2) := by
  simp only [nonAggGateTrace, hchk]

/-- Helper: one step of the gate trace when the check errs. -/
theorem nonAggGateTrace_step_error {F : Type} (fm : FloatModel F) (ef : Nat)
    (sql : SelectStmt) (cols : List Expr) (tables : List Table)
    (aliases : List (String × Nat)) (jan : List Bool) (hl : Bool) (counts : List Nat)
    (fuel : Nat) (cursor : List RowCursor) (er : ExecError)
    (hchk : check_print fm ef sql cols tables aliases jan hl cursor = .error er) :
    nonAggGateTrace fm ef sql cols tables aliases jan hl counts (fuel+1) cursor =
      .error er := by
  simp only [nonAggGateTrace, hchk]

/-- Helper: over a join-free statement, the gate trace started at an
exhausted singleton cursor collects nothing. -/
theorem nonAggGateTrace_none {F : Type} (fm : FloatModel F) (ef : Nat)
    (sql : SelectStmt) (cols : List Expr) (tables : List Table)
    (aliases : List (String × Nat)) (n : Nat) (hj : sql.join = [])
    (f : Nat) (s : Bool) (l : List (List (Option Nat)))
    (h : nonAggGateTrace fm ef sql cols tables aliases [false] false [n] f
      [⟨none, s⟩] = .ok l) : l = [] := by
  cases f with
  | zero => exact absurd h (by simp [nonAggGateTrace])
  | succ f =>
    have hchk : check_print fm ef sql cols tables aliases [false] false [⟨none, s⟩] =
        .ok false := by
      simp [check_print, hj]
    rw [nonAggGateTrace_step_fail fm ef sql cols tables aliases [false] false [n] f
      [⟨none, s⟩] hchk] at h
    rw [show incr_row_cursor [(⟨none, s⟩ : RowCursor)] [n] = (false, [⟨none, s⟩])
      from rfl] at h
    have h' : (Except.ok [] : Except ExecError (List (List (Option Nat)))) = .ok l := h
    exact (Except.ok.inj h').symm

/-- C4 amended: for join-free statements over a single table, the
aggregated fold and the non-aggregated gate admit exactly the same cursor
combinations, in the same order (whenever both runs complete).  With a JOIN
present the aggregated loop instead stops at the first exhausted cursor
digit and skips the LEFT-padded combinations (`c4_counterexample`). -/
theorem c4_amended {F : Type} (fm : FloatModel F) (ef : Nat) (sql : SelectStmt)
    (cols : List Expr) (tables : List Table) (aliases : List (String × Nat)) (n : Nat)
    (hj : sql.join = []) :
    ∀ (fuel1 fuel2 : Nat) (i : Nat) (s1 s2 : Bool) (ra : AggregateResult F)
      (la lg : List (List (Option Nat))),
      aggLoopTrace fm ef sql cols tables aliases [false] false [n] fuel1
        [⟨some i, s1⟩] ra = .ok la →
      nonAggGateTrace fm ef sql cols tables aliases [false] false [n] fuel2
        [⟨some i, s2⟩] = .ok lg →
      la = lg := by
  intro fuel1
  induction fuel1 with
  | zero =>
    intro fuel2 i s1 s2 ra la lg ha hg
    exact absurd ha (by simp [aggLoopTrace])
  | succ f1 ih =>
    intro fuel2 i s1 s2 ra la lg ha hg
    cases fuel2 with
    | zero => exact absurd hg (by simp [nonAggGateTrace])
    | succ f2 =>
      have hcc : check_print fm ef sql cols tables aliases [false] false [⟨some i, s2⟩] =
          check_print fm ef sql cols tables aliases [false] false [⟨some i, s1⟩] :=
        check_print_rows_congr fm ef sql cols tables aliases [false] false
          [⟨some i, s2⟩] [⟨some i, s1⟩] hj rfl
      cases hchk : check_print fm ef sql cols tables aliases [false] false
          [⟨some i, s1⟩] with
      | error er =>
        rw [aggLoopTrace_step_error fm ef sql cols tables aliases [false] false [n] f1
          [⟨some i, s1⟩] ra er hchk] at ha
        exact absurd ha (by simp)
      | ok pass =>
        cases hfold : aggFoldCols fm ef sql cols tables aliases [false] false
            [⟨some i, s1⟩] cols.enum ra with
        | error er =>
          rw [aggLoopTrace_step_folderr fm ef sql cols tables aliases [false] false [n]
            f1 [⟨some i, s1⟩] ra pass er hchk hfold] at ha
          exact absurd ha (by simp)
        | ok ra' =>
          rw [aggLoopTrace_step fm ef sql cols tables aliases [false] false [n] f1
            [⟨some i, s1⟩] ra pass ra' hchk hfold] at ha
          rw [show incr_row_cursor [(⟨some i, s1⟩ : RowCursor)] [n] =
            (true, [⟨if i + 1 < n then some (i+1) else none, s1⟩]) from rfl] at ha
          cases pass with
          | true =>
            rw [nonAggGateTrace_step_pass fm ef sql cols tables aliases [false] false
              [n] f2 [⟨some i, s2⟩] (hcc.trans hchk)] at hg
            rw [show incr_row_cursor (([(⟨some i, s2⟩ : RowCursor)]).map
              fun rc => ⟨rc.row, true⟩) [n] =
              (true, [⟨if i + 1 < n then some (i+1) else none, true⟩]) from rfl] at hg
            by_cases hin : i + 1 < n
            · rw [if_pos hin] at ha hg
              have ha2 : (match aggLoopTrace fm ef sql cols tables aliases [false] false
                  [n] f1 [⟨some (i+1), s1⟩] ra' with
                | Except.error e => Except.error e
                | Except.ok more => Except.ok ([some i] :: more)) = Except.ok la := ha
              have hg2 : (match nonAggGateTrace fm ef sql cols tables aliases [false]
                  false [n] f2 [⟨some (i+1), true⟩] with
                | Except.error e => Except.error e
                | Except.ok more => Except.ok ([some i] :: more)) = Except.ok lg := hg
              cases hra : aggLoopTrace fm ef sql cols tables aliases [false] false [n]
                  f1 [⟨some (i+1), s1⟩] ra' with
              | error er =>
                rw [hra] at ha2
                exact absurd ha2 (by simp)
              | ok morea =>
                cases hrg : nonAggGateTrace fm ef sql cols tables aliases [false] false
                    [n] f2 [⟨some (i+1), true⟩] with
                | error er =>
                  rw [hrg] at hg2
                  exact absurd hg2 (by simp)
                | ok moreg =>
                  rw [hra] at ha2
                  rw [hrg] at hg2
                  have hla : ([some i] :: morea : List (List (Option Nat))) = la :=
                    Except.ok.inj ha2
                  have hlg : ([some i] :: moreg : List (List (Option Nat))) = lg :=
                    Except.ok.inj hg2
                  rw [← hla, ← hlg, ih f2 (i+1) s1 true ra' morea moreg hra hrg]
            · rw [if_neg hin] at ha hg
              have ha2 : (Except.ok [[some i]] :
                  Except ExecError (List (List (Option Nat)))) = Except.ok la := ha
              have hg2 : (match nonAggGateTrace fm ef sql cols tables aliases [false]
                  false [n] f2 [⟨none, true⟩] with
                | Except.error e => Except.error e
                | Except.ok more => Except.ok ([some i] :: more)) = Except.ok lg := hg
              cases hrg : nonAggGateTrace fm ef sql cols tables aliases [false] false
                  [n] f2 [⟨none, true⟩] with
              | error er =>
                rw [hrg] at hg2
                exact absurd hg2 (by simp)
              | ok moreg =>
                rw [hrg] at hg2
                obtain rfl : moreg = [] :=
                  nonAggGateTrace_none fm ef sql cols tables aliases n hj f2 true
                    moreg hrg
                rw [← Except.ok.inj ha2, ← Except.ok.inj hg2]
          | false =>
            rw [nonAggGateTrace_step_fail fm ef sql cols tables aliases [false] false
              [n] f2 [⟨some i, s2⟩] (hcc.trans hchk)] at hg
            rw [show incr_row_cursor [(⟨some i, s2⟩ : RowCursor)] [n] =
              (true, [⟨if i + 1 < n then some (i+1) else none, s2⟩]) from rfl] at hg
            by_cases hin : i + 1 < n
            · rw [if_pos hin] at ha hg
              have ha2 : (match aggLoopTrace fm ef sql cols tables aliases [false] false
                  [n] f1 [⟨some (i+1), s1⟩] ra' with
                | Except.error e => Except.error e
                | Except.ok more => Except.ok ([] ++ more)) = Except.ok la := ha
              cases hra : aggLoopTrace fm ef sql cols tables aliases [false] false [n]
                  f1 [⟨some (i+1), s1⟩] ra' with
              | error er =>
                rw [hra] at ha2
                exact absurd ha2 (by simp)
              | ok morea =>
                rw [hra] at ha2
                have hla : (([] ++ morea : List (List (Option Nat)))) = la :=
                  Except.ok.inj ha2
                rw [← hla, List.nil_append]
                exact ih f2 (i+1) s1 s2 ra' morea lg hra hg
            · rw [if_neg hin] at ha hg
              have ha2 : (Except.ok [] :
                  Except ExecError (List (List (Option Nat)))) = Except.ok la := ha
              obtain rfl : lg = [] :=
                nonAggGateTrace_none fm ef sql cols tables aliases n hj f2 s2 lg hg
              exact (Except.ok.inj ha2).symm

/-- Witness for `c4_amended`: for `SELECT count(*) FROM t`, the aggregated
fold and the gate visit the same three combinations, in order. -/
theorem c4_amended_witness :
    aggLoopTrace unitFloat 2 (selectCount "t" none) [countStar] [exT] [] [false] false
      [3] 4 [⟨some 0, false⟩] ({} : AggregateResult Unit) =
      .ok [[some 0], [some 1], [some 2]] ∧
    nonAggGateTrace unitFloat 2 (selectCount "t" none) [countStar] [exT] [] [false]
      false [3] 5 [⟨some 0, true⟩] = .ok [[some 0], [some 1], [some 2]] ∧
    ([[some 0], [some 1], [some 2]] : List (List (Option Nat))) =
      [[some 0], [some 1], [some 2]] :=
  ⟨rfl, rfl,
    c4_amended unitFloat 2 (selectCount "t" none) [countStar] [exT] [] 3 rfl 4 5 0
      false true {} _ _ rfl rfl⟩

end Bogo
